import Mathlib

/-!
Verification of the lox-rs scanner / parser / tree-walking interpreter

Shallow embedding of the `lox-rs` repository (current generation of the code:
`src/scanner.rs`, `src/parser.rs`, `src/interpreter.rs`, `src/environment.rs`,
`src/token_type.rs`), together with theorems settling the specification claims.

Modelling conventions:
* Rust `f64` is modelled by `F64` below: NaN, signed infinities, and finite
  values carried as exact rationals.  IEEE-754 special-value behaviour
  (propagation of NaN, division by zero, comparisons involving NaN) is modelled
  exactly; rounding, overflow and signed zero of finite arithmetic are not
  (no claim depends on them).
* Fallible Rust functions returning `Result` become `Except`; methods that
  mutate `self` additionally return the updated state.
* Loops whose termination is not structural take a fuel parameter `Nat`;
  running out of fuel yields a distinguished error.  All theorems quantify
  over the fuel, concrete runs use a sufficiently large fuel.
* The interpreter environment in Rust is a linked chain
  `Environment { store, enclosing : Option<Arc<Mutex<Environment>>> }` with the
  interpreter holding the innermost scope.  The chain is strictly linear, so it
  is modelled as a list of scopes, innermost first; a `HashMap` scope is
  modelled as an association list whose insert replaces an existing key.
* Error message strings follow the source but drop apostrophe and brace
  characters.
-/

namespace LoxRs

/-- Model of Rust `f64`: NaN, the two infinities (`neg = true` is `-inf`),
and finite values as exact rationals. -/
inductive F64 where
  | nan : F64
  | inf (neg : Bool) : F64
  | finite (q : ℚ) : F64
deriving DecidableEq, Repr

namespace F64

/-- IEEE negation (Rust unary `-` on `f64`). -/
def neg : F64 → F64
  | nan => nan
  | inf s => inf (!s)
  | finite q => finite (-q)

/-- IEEE addition (finite part exact, rounding not modelled). -/
def add : F64 → F64 → F64
  | nan, _ => nan
  | _, nan => nan
  | inf s, inf t => if s = t then inf s else nan
  | inf s, finite _ => inf s
  | finite _, inf t => inf t
  | finite a, finite b => finite (a + b)

/-- IEEE subtraction, `x - y = x + (-y)`. -/
def sub (x y : F64) : F64 := add x (neg y)

/-- IEEE multiplication (finite part exact). -/
def mul : F64 → F64 → F64
  | nan, _ => nan
  | _, nan => nan
  | inf s, inf t => inf (xor s t)
  | inf s, finite q => if q = 0 then nan else inf (xor s (decide (q < 0)))
  | finite q, inf t => if q = 0 then nan else inf (xor (decide (q < 0)) t)
  | finite a, finite b => finite (a * b)

/-- IEEE division: `x / 0` is `±inf` for nonzero finite `x`, `0 / 0` is NaN. -/
def div : F64 → F64 → F64
  | nan, _ => nan
  | _, nan => nan
  | inf _, inf _ => nan
  | inf s, finite q => inf (xor s (decide (q < 0)))
  | finite _, inf _ => finite 0
  | finite a, finite b =>
      if b = 0 then (if a = 0 then nan else inf (decide (a < 0)))
      else finite (a / b)

/-- IEEE `<`: false whenever NaN is involved. -/
def ltb : F64 → F64 → Bool
  | nan, _ => false
  | _, nan => false
  | inf s, inf t => s && !t
  | inf s, finite _ => s
  | finite _, inf t => !t
  | finite a, finite b => decide (a < b)

/-- IEEE `≤`: false whenever NaN is involved. -/
def leb : F64 → F64 → Bool
  | nan, _ => false
  | _, nan => false
  | inf s, inf t => s || !t
  | inf s, finite _ => s
  | finite _, inf t => !t
  | finite a, finite b => decide (a ≤ b)

/-- IEEE `>` (Rust `left > right`). -/
def gtb (x y : F64) : Bool := ltb y x

/-- IEEE `≥` (Rust `left >= right`). -/
def geb (x y : F64) : Bool := leb y x

/-- IEEE equality: `NaN != NaN`, otherwise structural. -/
def beq : F64 → F64 → Bool
  | nan, _ => false
  | _, nan => false
  | inf s, inf t => s == t
  | finite a, finite b => decide (a = b)
  | _, _ => false

end F64

/-- `Literal` runtime values of the interpreter (from the current `token.rs`
used by `interpreter.rs`/`scanner.rs`; the Rust `String(Vec<char>)` payload is
modelled as a Lean `String`). -/
inductive Literal where
  | None : Literal
  | String (s : String) : Literal
  | Number (x : F64) : Literal
  | Boolean (b : Bool) : Literal
deriving DecidableEq, Repr

/-- Rust derived `PartialEq` on `Literal`: same-variant structural equality
with `f64` fields compared by IEEE equality; cross-variant never equal. -/
def Literal.beq : Literal → Literal → Bool
  | .None, .None => true
  | .String a, .String b => a == b
  | .Number a, .Number b => F64.beq a b
  | .Boolean a, .Boolean b => a == b
  | _, _ => false

/-- Token kinds, from `src/token_type.rs` (the current generation: note there
is no `Fun` variant). -/
inductive TokenType where
  | LeftParen | RightParen | LeftBrace | RightBrace
  | Comma | Dot | Minus | Plus | Semicolon | Slash | Star
  | Bang | BangEqual | Equal | EqualEqual
  | Greater | GreaterEqual | Less | LessEqual
  | Identifier | String | Number
  | And | Break | Class | Else | False | For | If | Nil | Or
  | Print | Return | Super | This | True | Var | While
  | Eof
deriving DecidableEq, Repr

/-- Rust `{:?}` (derive Debug) rendering of a `TokenType`, used in runtime
error messages of the interpreter (kept outside the `TokenType` namespace so that
the `String` in its signature denotes the string type). -/
def tokenTypeDebug : TokenType → String
  | .LeftParen => "LeftParen" | .RightParen => "RightParen"
  | .LeftBrace => "LeftBrace" | .RightBrace => "RightBrace"
  | .Comma => "Comma" | .Dot => "Dot" | .Minus => "Minus" | .Plus => "Plus"
  | .Semicolon => "Semicolon" | .Slash => "Slash" | .Star => "Star"
  | .Bang => "Bang" | .BangEqual => "BangEqual" | .Equal => "Equal"
  | .EqualEqual => "EqualEqual" | .Greater => "Greater"
  | .GreaterEqual => "GreaterEqual" | .Less => "Less"
  | .LessEqual => "LessEqual" | .Identifier => "Identifier"
  | .String => "String" | .Number => "Number" | .And => "And"
  | .Break => "Break" | .Class => "Class" | .Else => "Else"
  | .False => "False" | .For => "For" | .If => "If" | .Nil => "Nil"
  | .Or => "Or" | .Print => "Print" | .Return => "Return"
  | .Super => "Super" | .This => "This" | .True => "True"
  | .Var => "Var" | .While => "While" | .Eof => "Eof"

/-- Source location carried by the scanner and by every token
(fields as exhibited by the `scanner.rs` tests: `column`, `line`, `len`). -/
structure LocationInfo where
  column : Nat
  line : Nat
  len : Nat
deriving DecidableEq, Repr

/-- A token: kind, verbatim lexeme, literal payload and location
(current-generation `token.rs`, reconstructed from its uses in
`scanner.rs`/`parser.rs`/`interpreter.rs` and the spec data model §3). -/
structure Token where
  token_type : TokenType
  lexeme : String
  literal : Literal
  loc : LocationInfo
deriving DecidableEq, Repr

/-- Runtime errors of the interpreter (`errors.rs`: `RuntimeError { cause }`). -/
structure RuntimeError where
  cause : String
deriving DecidableEq, Repr

/-- Decidable equality for `Except` results, used to evaluate concrete runs. -/
instance {ε α : Type} [DecidableEq ε] [DecidableEq α] : DecidableEq (Except ε α) :=
  fun x y =>
    match x, y with
    | .ok a, .ok b =>
        if h : a = b then isTrue (by rw [h])
        else isFalse (by intro hh; cases hh; exact h rfl)
    | .ok _, .error _ => isFalse (by intro hh; cases hh)
    | .error _, .ok _ => isFalse (by intro hh; cases hh)
    | .error e, .error f =>
        if h : e = f then isTrue (by rw [h])
        else isFalse (by intro hh; cases hh; exact h rfl)

/-- Expressions, from the current-generation `expression.rs` as used by
`interpreter.rs` and constructed by `parser.rs`. -/
inductive Expression where
  | Variable (name : Token) : Expression
  | Assignment (name : Token) (e : Expression) : Expression
  | Literal (l : Literal) : Expression
  | Group (e : Expression) : Expression
  | Unary (op : Token) (right : Expression) : Expression
  | Logical (left : Expression) (op : Token) (right : Expression) : Expression
  | Binary (left : Expression) (op : Token) (right : Expression) : Expression
deriving Repr

/-- Statements, from the current-generation `statement.rs` as used by
`interpreter.rs` and constructed by `parser.rs`. -/
inductive Statement where
  | Break : Statement
  | If (cond : Expression) (thenB : Statement) (elseB : Option Statement) : Statement
  | While (cond : Expression) (body : Statement) : Statement
  | Print (e : Expression) : Statement
  | Var (name : Token) (init : Option Expression) : Statement
  | Expr (e : Expression) : Statement
  | Block (stmts : List Statement) : Statement
deriving Repr

/-! ## Environment (`src/environment.rs`)

One scope (`store : HashMap<String, Literal>`) is an association list with
replace-on-insert; the linear chain of scopes is a list, innermost first. -/

/-- One scope: the `store` hash map of `Environment`. -/
abbrev Scope := List (String × Literal)

/-- `HashMap::insert`: replace the binding if the key is present, otherwise
add it (position of a fresh key is irrelevant to all lookups). -/
def Scope.insert : Scope → String → Literal → Scope
  | [], k, v => [(k, v)]
  | (k1, v1) :: rest, k, v =>
      if k1 = k then (k, v) :: rest else (k1, v1) :: Scope.insert rest k v

/-- The chain of environments reachable from the interpreter: innermost
scope first, global scope last. -/
abbrev Env := List Scope

/-- `Environment::define`: insert into the innermost scope.  (In Rust it
returns `Result` but never fails; the empty-chain case is unreachable because
the interpreter always holds at least the global scope.) -/
def envDefine (env : Env) (k : String) (v : Literal) : Env :=
  match env with
  | [] => []
  | s :: rest => s.insert k v :: rest

/-- `Environment::assign`: walk outward, update the nearest scope that binds
`k`; error if no scope binds it. -/
def envAssign (env : Env) (k : String) (v : Literal) : Except RuntimeError Env :=
  match env with
  | [] => .error ⟨"undefined variable " ++ k⟩
  | s :: rest =>
      if (s.lookup k).isSome then
        .ok (s.insert k v :: rest)
      else
        match envAssign rest k v with
        | .ok rest₁ => .ok (s :: rest₁)
        | .error e => .error e

/-- `Environment::get`: walk outward, return the nearest binding of `k`;
error if no scope binds it. -/
def envGet (env : Env) (k : String) : Except RuntimeError Literal :=
  match env with
  | [] => .error ⟨"undefined variable " ++ k⟩
  | s :: rest =>
      match s.lookup k with
      | some v => .ok v
      | none => envGet rest k

/-! ## Interpreter (`src/interpreter.rs`) -/

/-- One entry written to the interpreter output sink.  Printed values are
recorded as the literal written (stringification via `Display` is downstream
presentation); the debug line of `Statement::Var` records name and value. -/
inductive OutEvent where
  | lit (l : Literal) : OutEvent
  | varDecl (name : String) (l : Literal) : OutEvent
deriving DecidableEq, Repr

/-- Interpreter state: environment chain, `break_encountered` flag, debug
mode, and what has been written to the output sink. -/
structure IState where
  env : Env
  brk : Bool
  debug : Bool
  out : List OutEvent
deriving DecidableEq, Repr

/-- `Interpreter::new`: fresh global scope, no break, debug off. -/
def IState.new : IState := { env := [[]], brk := false, debug := false, out := [] }

/-- `Interpreter::is_truthy`: `None` is false, booleans are themselves,
everything else is true. -/
def isTruthy : Literal → Bool
  | .None => false
  | .Boolean b => b
  | _ => true

/-- `Interpreter::evaluate_expression`.  Expressions can mutate the
environment (assignment), so the updated state is returned alongside the
result; on error the state reached so far is kept, as in Rust. -/
def evalExpr (st : IState) : Expression → Except RuntimeError Literal × IState
  | .Variable name => (envGet st.env name.lexeme, st)
  | .Assignment name e =>
      match evalExpr st e with
      | (.ok v, st₁) =>
          match envAssign st₁.env name.lexeme v with
          | .ok env₁ => (.ok v, { st₁ with env := env₁ })
          | .error err => (.error err, st₁)
      | (.error err, st₁) => (.error err, st₁)
  | .Literal l => (.ok l, st)
  | .Group e => evalExpr st e
  | .Unary op right =>
      match evalExpr st right with
      | (.ok r, st₁) =>
          match op.token_type with
          | .Minus =>
              match r with
              | .Number num => (.ok (.Number num.neg), st₁)
              | _ => (.error ⟨"- can only be used on numerical values."⟩, st₁)
          | .Bang => (.ok (.Boolean (!isTruthy r)), st₁)
          | tt => (.error ⟨"unexpected operator " ++ tokenTypeDebug tt⟩, st₁)
      | (.error err, st₁) => (.error err, st₁)
  | .Logical left op right =>
      match evalExpr st left with
      | (.ok l, st₁) =>
          if op.token_type = .Or then
            if isTruthy l then (.ok l, st₁) else evalExpr st₁ right
          else
            if !isTruthy l then (.ok l, st₁) else evalExpr st₁ right
      | (.error err, st₁) => (.error err, st₁)
  | .Binary left op right =>
      match evalExpr st left with
      | (.ok l, st₁) =>
          match evalExpr st₁ right with
          | (.ok r, st₂) =>
              match l, r with
              | .Number a, .Number b =>
                  match op.token_type with
                  | .Minus => (.ok (.Number (a.sub b)), st₂)
                  | .Slash => (.ok (.Number (a.div b)), st₂)
                  | .Star => (.ok (.Number (a.mul b)), st₂)
                  | .Plus => (.ok (.Number (a.add b)), st₂)
                  | .Greater => (.ok (.Boolean (a.gtb b)), st₂)
                  | .GreaterEqual => (.ok (.Boolean (a.geb b)), st₂)
                  | .Less => (.ok (.Boolean (a.ltb b)), st₂)
                  | .LessEqual => (.ok (.Boolean (a.leb b)), st₂)
                  | tt => (.error ⟨"unexpected operator " ++ tokenTypeDebug tt⟩, st₂)
              | _, _ =>
                  match op.token_type with
                  | .BangEqual => (.ok (.Boolean (!(l.beq r))), st₂)
                  | .EqualEqual => (.ok (.Boolean (l.beq r)), st₂)
                  | _ => (.error ⟨"invalid expression"⟩, st₂)
          | (.error err, st₂) => (.error err, st₂)
      | (.error err, st₁) => (.error err, st₁)



/-- The error used when evaluation fuel runs out (a modelling artifact: Rust
loops have no fuel; theorems quantify over the fuel). -/
def outOfFuel : RuntimeError := ⟨"out of fuel"⟩

/-- `Statement::Var` tail: optional debug output, then `define`. -/
def varFinish (st : IState) (name : Token) (v : Literal) :
    Except RuntimeError Unit × IState :=
  let st₁ := if st.debug then { st with out := st.out ++ [.varDecl name.lexeme v] } else st
  (.ok (), { st₁ with env := envDefine st₁.env name.lexeme v })

mutual

/-- `Interpreter::evaluate_statement`, fuel-indexed.  Every recursive call
consumes one unit of fuel. -/
def evalStmt : Nat → IState → Statement → Except RuntimeError Unit × IState
  | 0, st, _ => (.error outOfFuel, st)
  | n + 1, st, stmt =>
      match stmt with
      | .Break => (.ok (), { st with brk := true })
      | .If cond thenB elseB =>
          match evalExpr st cond with
          | (.ok c, st₁) =>
              if isTruthy c then evalStmt n st₁ thenB
              else
                match elseB with
                | some e => evalStmt n st₁ e
                | none => (.ok (), st₁)
          | (.error e, st₁) => (.error e, st₁)
      | .While cond body =>
          match evalExpr st cond with
          | (.ok l, st₁) => whileGo n st₁ cond body l
          | (.error e, st₁) => (.error e, st₁)
      | .Print e =>
          match evalExpr st e with
          | (.ok v, st₁) => (.ok (), { st₁ with out := st₁.out ++ [.lit v] })
          | (.error err, st₁) => (.error err, st₁)
      | .Var name init =>
          match init with
          | some e =>
              match evalExpr st e with
              | (.ok v, st₁) => varFinish st₁ name v
              | (.error err, st₁) => (.error err, st₁)
          | none => varFinish st name .None
      | .Expr e =>
          match evalExpr st e with
          | (.ok v, st₁) =>
              (.ok (), if st₁.debug then { st₁ with out := st₁.out ++ [.lit v] } else st₁)
          | (.error err, st₁) => (.error err, st₁)
      | .Block stmts =>
          -- push a fresh scope enclosing the current chain; `previous` is the
          -- pre-push chain.  On `Ok` the chain is restored (`self.env =
          -- previous`); on `Err` the `?` returns early and the inner scope
          -- stays installed.
          match evalStmtList n { st with env := [] :: st.env } stmts with
          | (.ok _, st₁) => (.ok (), { st₁ with env := st₁.env.tail })
          | (.error e, st₁) => (.error e, st₁)

/-- The `try_for_each` over a block body: statements run in order, skipped
once `break_encountered` is set, stopping at the first error. -/
def evalStmtList : Nat → IState → List Statement → Except RuntimeError Unit × IState
  | 0, st, _ => (.error outOfFuel, st)
  | _ + 1, st, [] => (.ok (), st)
  | n + 1, st, s :: rest =>
      if st.brk then evalStmtList n st rest
      else
        match evalStmt n st s with
        | (.ok _, st₁) => evalStmtList n st₁ rest
        | (.error e, st₁) => (.error e, st₁)

/-- The `while` loop of `Statement::While`: `lit` is the last value of the
condition; the body runs while it is truthy and no break is pending; on normal
exit the break flag is cleared (an error propagates without clearing it). -/
def whileGo : Nat → IState → Expression → Statement → Literal →
    Except RuntimeError Unit × IState
  | 0, st, _, _, _ => (.error outOfFuel, st)
  | n + 1, st, cond, body, l =>
      if isTruthy l && !st.brk then
        match evalStmt n st body with
        | (.ok _, st₁) =>
            match evalExpr st₁ cond with
            | (.ok l₂, st₂) => whileGo n st₂ cond body l₂
            | (.error e, st₂) => (.error e, st₂)
        | (.error e, st₁) => (.error e, st₁)
      else (.ok (), { st with brk := false })

end

/-- `Interpreter::interpret`: run the statements in order, stopping at the
first runtime error. -/
def interpret : Nat → IState → List Statement → Except RuntimeError Unit × IState
  | _, st, [] => (.ok (), st)
  | fuel, st, s :: rest =>
      match evalStmt fuel st s with
      | (.ok _, st₁) => interpret fuel st₁ rest
      | (.error e, st₁) => (.error e, st₁)


/-! ## Environment lemmas -/

theorem Scope.lookup_insert_self (s : Scope) (k : String) (v : Literal) :
    (s.insert k v).lookup k = some v := by
  induction s with
  | nil => simp [Scope.insert, List.lookup]
  | cons p rest ih =>
      rcases p with ⟨k1, v1⟩
      by_cases h : k1 = k
      · subst h; simp [Scope.insert, List.lookup]
      · have h2 : (k == k1) = false := by simp [Ne.symm h]
        simp [Scope.insert, h, List.lookup, h2, ih]

theorem Scope.lookup_insert_other (s : Scope) (k k2 : String) (v : Literal)
    (h : k2 ≠ k) : (s.insert k v).lookup k2 = s.lookup k2 := by
  induction s with
  | nil =>
      have h2 : (k2 == k) = false := by simp [h]
      simp [Scope.insert, List.lookup, h2]
  | cons p rest ih =>
      rcases p with ⟨k1, v1⟩
      by_cases hk : k1 = k
      · subst hk
        have h2 : (k2 == k1) = false := by simp [h]
        simp [Scope.insert, List.lookup, h2]
      · by_cases hk2 : k2 = k1
        · subst hk2; simp [Scope.insert, hk, List.lookup]
        · have h4 : (k2 == k1) = false := by simp [hk2]
          simp [Scope.insert, hk, List.lookup, h4, ih]

theorem envDefine_length (env : Env) (k : String) (v : Literal) :
    (envDefine env k v).length = env.length := by
  cases env <;> simp [envDefine]

theorem envAssign_length (env : Env) (k : String) (v : Literal) (env₁ : Env)
    (h : envAssign env k v = .ok env₁) : env₁.length = env.length := by
  induction env generalizing env₁ with
  | nil => simp [envAssign] at h
  | cons s rest ih =>
      unfold envAssign at h
      split at h
      · cases h; simp
      · cases hrec : envAssign rest k v with
        | ok rest₁ => rw [hrec] at h; cases h; simp [ih rest₁ hrec]
        | error e => rw [hrec] at h; cases h

theorem envAssign_get_self (env : Env) (k : String) (v : Literal) (env₁ : Env)
    (h : envAssign env k v = .ok env₁) : envGet env₁ k = .ok v := by
  induction env generalizing env₁ with
  | nil => simp [envAssign] at h
  | cons s rest ih =>
      unfold envAssign at h
      split at h
      · cases h
        simp [envGet, Scope.lookup_insert_self]
      · next hnone =>
          cases hrec : envAssign rest k v with
          | ok rest₁ =>
              rw [hrec] at h; cases h
              have hlk : s.lookup k = none := by
                cases hl : s.lookup k with
                | none => rfl
                | some w => rw [hl] at hnone; simp at hnone
              simp [envGet, hlk, ih rest₁ hrec]
          | error e => rw [hrec] at h; cases h

theorem envAssign_get_other (env : Env) (k k2 : String) (v : Literal) (env₁ : Env)
    (h : envAssign env k v = .ok env₁) (hk : k2 ≠ k) :
    envGet env₁ k2 = envGet env k2 := by
  induction env generalizing env₁ with
  | nil => simp [envAssign] at h
  | cons s rest ih =>
      unfold envAssign at h
      split at h
      · cases h
        simp [envGet, Scope.lookup_insert_other s k k2 v hk]
      · cases hrec : envAssign rest k v with
        | ok rest₁ =>
            rw [hrec] at h; cases h
            simp only [envGet]
            cases s.lookup k2 with
            | some w => rfl
            | none => exact ih rest₁ hrec
        | error e => rw [hrec] at h; cases h

/-- The environment chain length is unchanged by expression evaluation
(assignment updates scopes in place; no expression pushes or pops). -/
theorem evalExpr_env_length (e : Expression) (st : IState) :
    ((evalExpr st e).2).env.length = st.env.length := by
  induction e generalizing st with
  | Variable name => rfl
  | Assignment name e ih =>
      simp only [evalExpr]
      cases h : evalExpr st e with
      | mk r st₁ =>
          have hlen := ih st
          rw [h] at hlen
          cases r with
          | ok v =>
              simp only []
              cases ha : envAssign st₁.env name.lexeme v with
              | ok env₁ => simpa [envAssign_length _ _ _ _ ha] using hlen
              | error err => simpa using hlen
          | error err => simpa using hlen
  | Literal l => rfl
  | Group e ih => simpa [evalExpr] using ih st
  | Unary op right ih =>
      simp only [evalExpr]
      cases h : evalExpr st right with
      | mk r st₁ =>
          have hlen := ih st
          rw [h] at hlen
          cases r with
          | ok v =>
              cases op.token_type <;> first
                | (simpa using hlen)
                | (cases v <;> simpa using hlen)
          | error err => simpa using hlen
  | Logical left op right ihl ihr =>
      simp only [evalExpr]
      cases h : evalExpr st left with
      | mk r st₁ =>
          have hlen := ihl st
          rw [h] at hlen
          cases r with
          | ok v =>
              have hlen2 := ihr st₁
              by_cases hor : op.token_type = TokenType.Or <;>
                by_cases ht : isTruthy v <;>
                  simp [hor, ht, hlen, hlen2, hlen2.trans hlen]
          | error err => simpa using hlen
  | Binary left op right ihl ihr =>
      simp only [evalExpr]
      cases h : evalExpr st left with
      | mk r st₁ =>
          have hlen := ihl st
          rw [h] at hlen
          cases r with
          | ok vl =>
              simp only []
              cases h2 : evalExpr st₁ right with
              | mk r2 st₂ =>
                  have hlen2 := ihr st₁
                  rw [h2] at hlen2
                  have htrans : st₂.env.length = st.env.length := hlen2.trans hlen
                  cases r2 with
                  | ok vr =>
                      cases vl <;> cases vr <;>
                        cases op.token_type <;> simpa using htrans
                  | error err => simpa using htrans
          | error err => simpa using hlen


theorem varFinish_fst (st : IState) (name : Token) (v : Literal) :
    (varFinish st name v).1 = .ok () := rfl

theorem varFinish_env_length (st : IState) (name : Token) (v : Literal) :
    ((varFinish st name v).2).env.length = st.env.length := by
  by_cases h : st.debug <;> simp [varFinish, h, envDefine_length]

/-- On every `Ok` exit, statement evaluation leaves the environment chain at
its original depth (each pushed block scope is popped again).  Proved
simultaneously for the three mutually recursive evaluators. -/
theorem evalOk_env_length (n : Nat) :
    (∀ st stmt u st', evalStmt n st stmt = (.ok u, st') →
      st'.env.length = st.env.length) ∧
    (∀ st stmts u st', evalStmtList n st stmts = (.ok u, st') →
      st'.env.length = st.env.length) ∧
    (∀ st cond body l u st', whileGo n st cond body l = (.ok u, st') →
      st'.env.length = st.env.length) := by
  induction n with
  | zero =>
      refine ⟨?_, ?_, ?_⟩
      · intro st stmt u st' h; simp [evalStmt] at h
      · intro st stmts u st' h; simp [evalStmtList] at h
      · intro st cond body l u st' h; simp [whileGo] at h
  | succ n ih =>
      obtain ⟨ihS, ihL, ihW⟩ := ih
      refine ⟨?_, ?_, ?_⟩
      · intro st stmt u st' h
        cases stmt with
        | Break =>
            simp only [evalStmt] at h
            cases h; rfl
        | If cond thenB elseB =>
            simp only [evalStmt] at h
            cases hc : evalExpr st cond with
            | mk r st₁ =>
                have hl : st₁.env.length = st.env.length := by
                  have := evalExpr_env_length cond st; rw [hc] at this; exact this
                rw [hc] at h
                cases r with
                | ok c =>
                    by_cases ht : isTruthy c
                    · simp only [ht, if_true] at h
                      exact (ihS _ _ _ _ h).trans hl
                    · simp only [ht, if_false] at h
                      cases elseB with
                      | some e => exact (ihS _ _ _ _ h).trans hl
                      | none => cases h; exact hl
                | error e => cases h
        | While cond body =>
            simp only [evalStmt] at h
            cases hc : evalExpr st cond with
            | mk r st₁ =>
                have hl : st₁.env.length = st.env.length := by
                  have := evalExpr_env_length cond st; rw [hc] at this; exact this
                rw [hc] at h
                cases r with
                | ok l => exact (ihW _ _ _ _ _ _ h).trans hl
                | error e => cases h
        | Print e =>
            simp only [evalStmt] at h
            cases hc : evalExpr st e with
            | mk r st₁ =>
                have hl : st₁.env.length = st.env.length := by
                  have := evalExpr_env_length e st; rw [hc] at this; exact this
                rw [hc] at h
                cases r with
                | ok v => cases h; exact hl
                | error err => cases h
        | Var name init =>
            cases init with
            | some e =>
                simp only [evalStmt] at h
                cases hc : evalExpr st e with
                | mk r st₁ =>
                    have hl : st₁.env.length = st.env.length := by
                      have := evalExpr_env_length e st; rw [hc] at this; exact this
                    rw [hc] at h
                    cases r with
                    | ok v =>
                        dsimp only [] at h
                        have h2 : st' = (varFinish st₁ name v).2 := by
                          rw [h]
                        rw [h2, varFinish_env_length]
                        exact hl
                    | error err => cases h
            | none =>
                simp only [evalStmt] at h
                have h2 : st' = (varFinish st name Literal.None).2 := by
                  rw [h]
                rw [h2, varFinish_env_length]
        | Expr e =>
            simp only [evalStmt] at h
            cases hc : evalExpr st e with
            | mk r st₁ =>
                have hl : st₁.env.length = st.env.length := by
                  have := evalExpr_env_length e st; rw [hc] at this; exact this
                rw [hc] at h
                cases r with
                | ok v =>
                    cases h
                    by_cases hd : st₁.debug <;> simp [hd, hl]
                | error err => cases h
        | Block stmts =>
            simp only [evalStmt] at h
            cases hb : evalStmtList n { st with env := [] :: st.env } stmts with
            | mk r st₁ =>
                rw [hb] at h
                cases r with
                | ok v =>
                    cases h
                    have hlen := ihL _ _ _ _ hb
                    simp only [List.length_cons] at hlen
                    simp only [List.length_tail, hlen]
                    omega
                | error e => cases h
      · intro st stmts u st' h
        cases stmts with
        | nil => cases h; rfl
        | cons sHead rest =>
            simp only [evalStmtList] at h
            by_cases hb : st.brk
            · simp only [hb, if_true] at h
              exact ihL _ _ _ _ h
            · simp only [hb, if_false] at h
              cases hs : evalStmt n st sHead with
              | mk r st₁ =>
                  rw [hs] at h
                  cases r with
                  | ok v => exact (ihL _ _ _ _ h).trans (ihS _ _ _ _ hs)
                  | error e => cases h
      · intro st cond body l u st' h
        simp only [whileGo] at h
        by_cases hc : isTruthy l && !st.brk
        · simp only [hc, if_true] at h
          cases hs : evalStmt n st body with
          | mk r st₁ =>
              rw [hs] at h
              cases r with
              | ok v =>
                  dsimp only [] at h
                  cases he : evalExpr st₁ cond with
                  | mk r2 st₂ =>
                      have hl : st₂.env.length = st₁.env.length := by
                        have := evalExpr_env_length cond st₁; rw [he] at this
                        exact this
                      rw [he] at h
                      cases r2 with
                      | ok l2 =>
                          exact ((ihW _ _ _ _ _ _ h).trans hl).trans (ihS _ _ _ _ hs)
                      | error e => cases h
              | error e => cases h
        · simp only [hc, if_false] at h
          cases h; rfl


/-! ## Concrete fixtures for claim instances -/

/-- An identifier token named `name` (location immaterial to evaluation). -/
def identTok (name : String) : Token :=
  { token_type := .Identifier, lexeme := name, literal := .None, loc := ⟨0, 0, 0⟩ }

/-- An operator token of the given kind. -/
def opTok (tt : TokenType) : Token :=
  { token_type := tt, lexeme := "", literal := .None, loc := ⟨0, 0, 0⟩ }

/-- A number-literal expression. -/
def numLit (q : ℚ) : Expression := .Literal (.Number (.finite q))

/-- A one-scope interpreter state binding `b ↦ 5`. -/
def stB5 : IState :=
  { env := [[("b", .Number (.finite 5))]], brk := false, debug := false, out := [] }

/-- A one-scope interpreter state binding `a ↦ 1`. -/
def stA1 : IState :=
  { env := [[("a", .Number (.finite 1))]], brk := false, debug := false, out := [] }

/-! ## Claim theorems: interpreter -/

/-- Claim C1: contrary to the claim, a Binary `==` or `!=` whose two operands
evaluate to Numbers is a runtime error in the code: the both-numbers arm of
`evaluate_expression` has no case for the equality operators and its catch-all
returns `Err("unexpected operator …")`, so the outer equality match is never
reached for two numbers. -/
theorem C1_number_equality_is_runtime_error (st : IState) (op : Token) (a b : F64)
    (h : op.token_type = .EqualEqual ∨ op.token_type = .BangEqual) :
    evalExpr st (.Binary (.Literal (.Number a)) op (.Literal (.Number b))) =
      (.error ⟨"unexpected operator " ++ tokenTypeDebug op.token_type⟩, st) := by
  rcases h with h | h <;> simp [evalExpr, h]

/-- Claim C1, instance: `1 == 2` evaluates to the runtime error
`unexpected operator EqualEqual`, not to `Boolean(false)`. -/
theorem C1_number_equality_is_runtime_error_witness :
    evalExpr IState.new (.Binary (numLit 1) (opTok .EqualEqual) (numLit 2)) =
      (.error ⟨"unexpected operator EqualEqual"⟩, IState.new) := by
  have := C1_number_equality_is_runtime_error IState.new (opTok .EqualEqual)
    (.finite 1) (.finite 2) (Or.inl rfl)
  simpa using this

/-- Claim C2, counterexample: a runtime error inside a block propagates
before `self.env = previous` runs, so the pushed scope is NOT popped: after
evaluating `{ x; }` with `x` undefined, the environment chain has depth 2,
not the depth 1 it started with. -/
theorem C2_block_error_keeps_scope_counterexample :
    evalStmt 10 IState.new (.Block [.Expr (.Variable (identTok "x"))]) =
      (.error ⟨"undefined variable x"⟩,
       { env := [[], []], brk := false, debug := false, out := [] }) ∧
    ([([] : Scope), []] : Env).length ≠ IState.new.env.length := by
  exact ⟨by decide, by decide⟩

/-- Claim C2 (amended): the scope pushed at block entry is popped on every
`Ok` exit (normal completion and break), and on `Ok` exits the environment
depth always returns to the pre-statement depth; a runtime error, however,
propagates without popping. -/
theorem C2_block_scope_popped_on_success :
    (∀ (n : Nat) (st : IState) (stmt : Statement) (u : Unit) (st' : IState),
        evalStmt n st stmt = (.ok u, st') → st'.env.length = st.env.length) ∧
    (∀ (n : Nat) (st : IState) (stmts : List Statement) (u : Unit) (st₁ : IState),
        evalStmtList n { st with env := [] :: st.env } stmts = (.ok u, st₁) →
        evalStmt (n + 1) st (.Block stmts) = (.ok (), { st₁ with env := st₁.env.tail })) := by
  constructor
  · intro n st stmt u st' h
    exact (evalOk_env_length n).1 st stmt u st' h
  · intro n st stmts u st₁ h
    simp [evalStmt, h]

/-- Claim C2 (amended), instance: a block that assigns to an outer binding
completes with the original chain depth restored. -/
theorem C2_block_scope_popped_on_success_witness :
    ({ env := [[("b", Literal.Number (F64.finite 7))]], brk := false, debug := false,
       out := [] } : IState).env.length = stB5.env.length :=
  C2_block_scope_popped_on_success.1 10 stB5
    (.Block [.Expr (.Assignment (identTok "b") (numLit 7))]) ()
    { env := [[("b", Literal.Number (F64.finite 7))]], brk := false, debug := false,
      out := [] }
    (by decide)

/-- Claim C7: `Logical` short-circuits and returns the raw operand value.
With `or`, a truthy left value is returned unchanged and the right operand is
not evaluated, otherwise the result is the evaluation of the right operand;
with `and` symmetrically for a non-truthy left value. -/
theorem C7_logical_short_circuit (st st₁ : IState) (l r : Expression) (op : Token)
    (v : Literal) (h : evalExpr st l = (.ok v, st₁)) :
    (op.token_type = .Or →
      evalExpr st (.Logical l op r) =
        (if isTruthy v then (.ok v, st₁) else evalExpr st₁ r)) ∧
    (op.token_type = .And →
      evalExpr st (.Logical l op r) =
        (if isTruthy v then evalExpr st₁ r else (.ok v, st₁))) := by
  constructor
  · intro hop
    simp only [evalExpr, h, hop]
    by_cases ht : isTruthy v <;> simp [ht]
  · intro hop
    simp only [evalExpr, h, hop]
    by_cases ht : isTruthy v <;> simp [ht]

/-- Claim C7, instance: `1 or 2` evaluates to the raw operand `1`, not to a
coerced boolean. -/
theorem C7_logical_short_circuit_witness :
    evalExpr IState.new (.Logical (numLit 1) (opTok .Or) (numLit 2)) =
      (.ok (.Number (.finite 1)), IState.new) := by
  have := (C7_logical_short_circuit IState.new IState.new (numLit 1) (numLit 2)
    (opTok .Or) (.Number (.finite 1)) rfl).1 rfl
  simpa [isTruthy] using this

/-- Claim C8: evaluating `Assignment(n, e)` evaluates `e` to `v`, updates the
nearest enclosing scope binding `n` (leaving every other binding unchanged),
and yields `v`; the program `var a = 1; print a = 3;` prints `3` and leaves
`a` bound to `3`. -/
theorem C8_assignment_returns_assigned_value :
    (∀ (st st₁ : IState) (name : Token) (e : Expression) (v : Literal) (env₁ : Env),
        evalExpr st e = (.ok v, st₁) →
        envAssign st₁.env name.lexeme v = .ok env₁ →
        evalExpr st (.Assignment name e) = (.ok v, { st₁ with env := env₁ })) ∧
    (∀ (env : Env) (k : String) (v : Literal) (env₁ : Env),
        envAssign env k v = .ok env₁ →
        envGet env₁ k = .ok v ∧ ∀ k2, k2 ≠ k → envGet env₁ k2 = envGet env k2) ∧
    interpret 10 IState.new
        [.Var (identTok "a") (some (numLit 1)),
         .Print (.Assignment (identTok "a") (numLit 3))] =
      (.ok (), { env := [[("a", .Number (.finite 3))]], brk := false, debug := false,
                 out := [.lit (.Number (.finite 3))] }) := by
  refine ⟨?_, ?_, ?_⟩
  · intro st st₁ name e v env₁ h ha
    simp [evalExpr, h, ha]
  · intro env k v env₁ h
    exact ⟨envAssign_get_self env k v env₁ h,
           fun k2 hk => envAssign_get_other env k k2 v env₁ h hk⟩
  · decide

/-- Claim C8, instance: with `a ↦ 1` in scope, `a = 3` evaluates to `3` and
rebinds `a` to `3`. -/
theorem C8_assignment_returns_assigned_value_witness :
    evalExpr stA1 (.Assignment (identTok "a") (numLit 3)) =
      (.ok (.Number (.finite 3)),
       { stA1 with env := [[("a", .Number (.finite 3))]] }) :=
  C8_assignment_returns_assigned_value.1 stA1 stA1 (identTok "a") (numLit 3)
    (.Number (.finite 3)) [[("a", .Number (.finite 3))]] rfl (by decide)

/-- Claim C9: a Binary division whose operands evaluate to Numbers always
succeeds with the IEEE-754 quotient: a nonzero finite number divided by zero
yields `±inf` (sign of the dividend) and `0 / 0` yields NaN, never a runtime
error. -/
theorem C9_division_is_total_ieee :
    (∀ (st st₁ st₂ : IState) (l r : Expression) (op : Token) (a b : F64),
        op.token_type = .Slash →
        evalExpr st l = (.ok (.Number a), st₁) →
        evalExpr st₁ r = (.ok (.Number b), st₂) →
        evalExpr st (.Binary l op r) = (.ok (.Number (a.div b)), st₂)) ∧
    (∀ q : ℚ, q ≠ 0 → F64.div (.finite q) (.finite 0) = .inf (decide (q < 0))) ∧
    F64.div (.finite 0) (.finite 0) = .nan := by
  refine ⟨?_, ?_, ?_⟩
  · intro st st₁ st₂ l r op a b hop hl hr
    simp [evalExpr, hl, hr, hop]
  · intro q hq
    simp [F64.div, hq]
  · rfl

/-- Claim C9, instance: `1 / 0` evaluates to `+inf` with no error. -/
theorem C9_division_is_total_ieee_witness :
    evalExpr IState.new (.Binary (numLit 1) (opTok .Slash) (numLit 0)) =
      (.ok (.Number (.inf false)), IState.new) := by
  have := C9_division_is_total_ieee.1 IState.new IState.new IState.new
    (numLit 1) (numLit 0) (opTok .Slash) (.finite 1) (.finite 0) rfl rfl rfl
  have h2 : (F64.finite 1).div (F64.finite 0) = F64.inf false := by decide
  rw [h2] at this
  exact this

/-- Claim C10: `Environment::define` inserts unconditionally, so re-declaring
a name already bound in the innermost scope silently replaces the binding;
`var a = 1; var a = 2;` runs without error and leaves `a ↦ 2`. -/
theorem C10_var_redeclaration_replaces_binding :
    (∀ (sc : Scope) (rest : Env) (k : String) (v : Literal),
        envGet (envDefine (sc :: rest) k v) k = .ok v) ∧
    interpret 10 IState.new
        [.Var (identTok "a") (some (numLit 1)),
         .Var (identTok "a") (some (numLit 2))] =
      (.ok (), { env := [[("a", .Number (.finite 2))]], brk := false, debug := false,
                 out := [] }) := by
  constructor
  · intro sc rest k v
    simp [envDefine, envGet, Scope.lookup_insert_self]
  · decide


/-! ## Scanner (`src/scanner.rs`) -/

/-- Scan errors (`errors.rs`: `ScannerError { cause, location }`). -/
structure ScannerError where
  cause : String
  location : LocationInfo
deriving DecidableEq, Repr

/-- The `f64` parse of a numeric lexeme (digits with an optional fractional
part), exact as a rational. -/
def parseNumber (cs : List Char) : ℚ :=
  let digitsToNat : List Char → Nat :=
    fun ds => ds.foldl (fun acc c => acc * 10 + (c.toNat - 48)) 0
  let intPart := cs.takeWhile (fun c => c.isDigit)
  match cs.dropWhile (fun c => c.isDigit) with
  | '.' :: frac => (digitsToNat intPart : ℚ) + (digitsToNat frac : ℚ) / ((10 : ℚ) ^ frac.length)
  | _ => (digitsToNat intPart : ℚ)

/-- The literal payload of a built token.  The current-generation `token.rs`
is not in the tree; modelled from the spec data model (§3: `literal` is one of
Nil, Number(f64), String(text), Boolean) and from the scanner tests, which
exhibit `Number(25_f64)` for number tokens, the text for string tokens and
`None` for `Eof`. -/
def tokenLiteral (tt : TokenType) (lexeme : String) : Literal :=
  match tt with
  | .String => .String lexeme
  | .Number => .Number (.finite (parseNumber lexeme.toList))
  | .True => .Boolean true
  | .False => .Boolean false
  | _ => .None

/-- `TokenBuilder` (from the missing current-generation `token.rs`; modelled
from its call sites in `scanner.rs` and the scanner tests): it records the
kind, the accumulated lexeme and the captured location; the built token's
`loc.len` is the lexeme length, as the tests exhibit. -/
structure TokenBuilder where
  token_type : TokenType
  lexeme : List Char
  column : Nat
  line : Nat

/-- `TokenBuilder::default()`; the default kind is immaterial: every token
pushed to the token list has its kind set before `build`. -/
def TokenBuilder.default : TokenBuilder :=
  { token_type := .Eof, lexeme := [], column := 0, line := 0 }

/-- `TokenBuilder::location`. -/
def TokenBuilder.location (b : TokenBuilder) (column line : Nat) : TokenBuilder :=
  { b with column := column, line := line }

/-- `TokenBuilder::append_lexeme`. -/
def TokenBuilder.appendLexeme (b : TokenBuilder) (ch : Char) : TokenBuilder :=
  { b with lexeme := b.lexeme ++ [ch] }

/-- `TokenBuilder::token_type`. -/
def TokenBuilder.tokenType (b : TokenBuilder) (tt : TokenType) : TokenBuilder :=
  { b with token_type := tt }

/-- `TokenBuilder::current_lexeme`. -/
def TokenBuilder.currentLexeme (b : TokenBuilder) : String := String.mk b.lexeme

/-- `TokenBuilder::build`. -/
def TokenBuilder.build (b : TokenBuilder) : Token :=
  { token_type := b.token_type,
    lexeme := String.mk b.lexeme,
    literal := tokenLiteral b.token_type (String.mk b.lexeme),
    loc := { column := b.column, line := b.line, len := b.lexeme.length } }

/-- Scanner state (`Scanner { source, tokens, loc }`). -/
structure Scanner where
  source : List Char
  tokens : List Token
  loc : LocationInfo
deriving DecidableEq, Repr

/-- The `IDENTIFIERS` keyword table of `scanner.rs` — note that `fun` is not
in it (and `TokenType` has no `Fun` variant). -/
def IDENTIFIERS : List (String × TokenType) :=
  [("and", .And), ("class", .Class), ("else", .Else), ("false", .False),
   ("for", .For), ("if", .If), ("nil", .Nil), ("or", .Or),
   ("print", .Print), ("return", .Return), ("super", .Super), ("this", .This),
   ("true", .True), ("var", .Var), ("while", .While), ("break", .Break)]

/-- `Scanner::new`: note the location starts at `column 0, line 1`. -/
def Scanner.new (source : String) : Scanner :=
  { source := source.toList, tokens := [],
    loc := { column := 0, line := 1, len := 0 } }

/-- `Scanner::is_at_end`. -/
def Scanner.isAtEnd (s : Scanner) : Bool := s.loc.len == s.source.length

/-- `Scanner::peek` (`\0` at the end). -/
def Scanner.peek (s : Scanner) : Char :=
  if s.isAtEnd then Char.ofNat 0 else s.source.getD s.loc.len (Char.ofNat 0)

/-- `Scanner::peek_next`. -/
def Scanner.peekNext (s : Scanner) : Char :=
  if s.isAtEnd || s.loc.len + 1 ≥ s.source.length then Char.ofNat 0
  else s.source.getD (s.loc.len + 1) (Char.ofNat 0)

/-- `Scanner::next`: consume one character, advancing `len` and `column`
(never `line`).  Rust indexes `source[len]` and would panic past the end;
callers only invoke it before the end. -/
def Scanner.next (s : Scanner) : Char × Scanner :=
  (s.source.getD s.loc.len (Char.ofNat 0),
   { s with loc := { s.loc with len := s.loc.len + 1, column := s.loc.column + 1 } })

/-- `Scanner::next_if`. -/
def Scanner.nextIf (s : Scanner) (f : Char → Bool) : Option (Char × Scanner) :=
  if s.isAtEnd then none
  else
    let ch := s.source.getD s.loc.len (Char.ofNat 0)
    if f ch then some s.next else none

/-- `Scanner::_add_token`. -/
def Scanner.addToken (s : Scanner) (chars : List Char) (tt : TokenType)
    (b : TokenBuilder) : Scanner :=
  let b := chars.foldl TokenBuilder.appendLexeme (b.tokenType tt)
  { s with tokens := s.tokens ++ [b.build] }

/-- The character-consuming loop of a `//` comment: discard until the next
newline or the end (fuel-recursive). -/
def commentGo : Nat → Scanner → Scanner
  | 0, s => s
  | n + 1, s =>
      if s.peek != '\n' && !s.isAtEnd then commentGo n (s.next).2 else s

/-- The string-consuming loop of `_add_string`: consume characters up to the
closing quote (or the end), bumping the line counter at embedded newlines. -/
def stringGo : Nat → Scanner → TokenBuilder → Scanner × TokenBuilder
  | 0, s, b => (s, b)
  | n + 1, s, b =>
      if s.peek != '"' && !s.isAtEnd then
        let s₁ := if s.peek = '\n' then { s with loc := { s.loc with line := s.loc.line + 1 } } else s
        let (ch, s₂) := s₁.next
        stringGo n s₂ (b.appendLexeme ch)
      else (s, b)

/-- `Scanner::_add_string` (called after the opening quote was consumed):
re-captures the location at the first content character, consumes the string
body, and errors on an unterminated string. -/
def addString (fuel : Nat) (s : Scanner) (b : TokenBuilder) :
    Except ScannerError Scanner :=
  let b := (b.tokenType .String).location s.loc.column s.loc.line
  let (s₁, b₁) := stringGo fuel s b
  if s₁.isAtEnd then
    .error { cause := "unterminated string", location := b₁.build.loc }
  else
    let (_, s₂) := s₁.next
    .ok { s₂ with tokens := s₂.tokens ++ [b₁.build] }

/-- The digit-consuming loop of `_add_number`. -/
def digitsGo : Nat → Scanner → TokenBuilder → Scanner × TokenBuilder
  | 0, s, b => (s, b)
  | n + 1, s, b =>
      if (s.peek).isDigit then
        let (ch, s₁) := s.next
        digitsGo n s₁ (b.appendLexeme ch)
      else (s, b)

/-- `Scanner::_add_number`: integer digits, then an optional `.` followed by
at least one digit and the fractional digits. -/
def addNumber (fuel : Nat) (s : Scanner) (b : TokenBuilder) :
    Except ScannerError Scanner :=
  let b := b.tokenType .Number
  let (s₁, b₁) := digitsGo fuel s b
  if s₁.peek = '.' && (s₁.peekNext).isDigit then
    let (ch, s₂) := s₁.next
    let (s₃, b₃) := digitsGo fuel s₂ (b₁.appendLexeme ch)
    .ok { s₃ with tokens := s₃.tokens ++ [b₃.build] }
  else
    .ok { s₁ with tokens := s₁.tokens ++ [b₁.build] }

/-- The identifier-consuming loop of `_add_identifier`. -/
def identGo : Nat → Scanner → TokenBuilder → Scanner × TokenBuilder
  | 0, s, b => (s, b)
  | n + 1, s, b =>
      if !s.isAtEnd && ((s.peek).isAlphanum || s.peek = '_') then
        let (ch, s₁) := s.next
        identGo n s₁ (b.appendLexeme ch)
      else (s, b)

/-- `Scanner::_add_identifier`: consume the identifier tail, then look the
lexeme up in `IDENTIFIERS`; a hit turns the token into the keyword kind. -/
def addIdentifier (fuel : Nat) (s : Scanner) (b : TokenBuilder) : Scanner :=
  let b := b.tokenType .Identifier
  let (s₁, b₁) := identGo fuel s b
  let hits := (IDENTIFIERS.filter (fun p => p.1 == b₁.currentLexeme)).map (fun p => p.2)
  let b₂ := if h : hits.length = 1 then b₁.tokenType (hits.getLast (by
      intro hnil; rw [hnil] at h; simp at h)) else b₁
  { s₁ with tokens := s₁.tokens ++ [b₂.build] }

/-- `_is_alpha`. -/
def isAlphaChar (ch : Char) : Bool :=
  ch.isLower || ch.isUpper || ch = '_'

/-- `Scanner::scan_token`: capture the builder location, consume one
character and dispatch on it. -/
def scanToken (fuel : Nat) (s : Scanner) : Except ScannerError Scanner :=
  let b := TokenBuilder.default.location s.loc.column s.loc.line
  let (ch, s₁) := s.next
  if ch = ' ' ∨ ch = '\r' ∨ ch = '\t' then .ok s₁
  else if ch = '\n' then .ok { s₁ with loc := { s₁.loc with line := s₁.loc.line + 1 } }
  else if ch = '(' then .ok (s₁.addToken [ch] .LeftParen b)
  else if ch = ')' then .ok (s₁.addToken [ch] .RightParen b)
  else if ch = '{' then .ok (s₁.addToken [ch] .LeftBrace b)
  else if ch = '}' then .ok (s₁.addToken [ch] .RightBrace b)
  else if ch = ',' then .ok (s₁.addToken [ch] .Comma b)
  else if ch = '.' then .ok (s₁.addToken [ch] .Dot b)
  else if ch = '-' then .ok (s₁.addToken [ch] .Minus b)
  else if ch = '+' then .ok (s₁.addToken [ch] .Plus b)
  else if ch = ';' then .ok (s₁.addToken [ch] .Semicolon b)
  else if ch = '*' then .ok (s₁.addToken [ch] .Star b)
  else if ch = '!' then
    match s₁.nextIf (fun c => c = '=') with
    | some (ch2, s₂) => .ok (s₂.addToken [ch, ch2] .BangEqual b)
    | none => .ok (s₁.addToken [ch] .Bang b)
  else if ch = '=' then
    match s₁.nextIf (fun c => c = '=') with
    | some (ch2, s₂) => .ok (s₂.addToken [ch, ch2] .EqualEqual b)
    | none => .ok (s₁.addToken [ch] .Equal b)
  else if ch = '<' then
    match s₁.nextIf (fun c => c = '=') with
    | some (ch2, s₂) => .ok (s₂.addToken [ch, ch2] .LessEqual b)
    | none => .ok (s₁.addToken [ch] .Less b)
  else if ch = '>' then
    match s₁.nextIf (fun c => c = '=') with
    | some (ch2, s₂) => .ok (s₂.addToken [ch, ch2] .GreaterEqual b)
    | none => .ok (s₁.addToken [ch] .Greater b)
  else if ch = '/' then
    match s₁.nextIf (fun c => c = '/') with
    | some (_, s₂) => .ok (commentGo fuel s₂)
    | none => .ok (s₁.addToken [ch] .Slash b)
  else if ch = '"' then addString fuel s₁ b
  else if ch.isDigit then addNumber fuel s₁ (b.appendLexeme ch)
  else if isAlphaChar ch then .ok (addIdentifier fuel s₁ (b.appendLexeme ch))
  else .error { cause := "unexpected character: " ++ String.mk [ch], location := b.build.loc }

/-- The `Scanner::run` loop: scan tokens until the end, then append the
`Eof` token. -/
def runGo : Nat → Scanner → Except ScannerError Scanner
  | 0, s => .error { cause := "out of fuel", location := s.loc }
  | n + 1, s =>
      if s.isAtEnd then
        .ok (s.addToken [] .Eof (TokenBuilder.default.location s.loc.column s.loc.line))
      else
        match scanToken n s with
        | .ok s₁ => runGo n s₁
        | .error e => .error e

/-- `Scanner::run`: a no-op if the token list already ends in `Eof`,
otherwise the scan loop.  The canonical fuel bounds every loop iteration by
the number of source characters plus the final `Eof` step. -/
def Scanner.run (s : Scanner) : Except ScannerError Scanner :=
  match s.tokens.getLast? with
  | some t => if t.token_type = .Eof then .ok s else runGo (2 * s.source.length + 2) s
  | none => runGo (2 * s.source.length + 2) s


/-! ## Scanner lemmas: the line counter never drops below 1 -/

/-- The invariant behind claim C5: the running line counter is at least 1 and
every emitted token's line is at least 1. -/
def lineInv (s : Scanner) : Prop :=
  1 ≤ s.loc.line ∧ ∀ t ∈ s.tokens, 1 ≤ t.loc.line

theorem next_line_tokens (s : Scanner) :
    ((s.next).2).loc.line = s.loc.line ∧ ((s.next).2).tokens = s.tokens :=
  ⟨rfl, rfl⟩

theorem foldl_appendLexeme_line (chars : List Char) (b : TokenBuilder) :
    (chars.foldl TokenBuilder.appendLexeme b).line = b.line := by
  induction chars generalizing b with
  | nil => rfl
  | cons c rest ih => simp [List.foldl, ih, TokenBuilder.appendLexeme]

theorem addToken_lineInv (s : Scanner) (chars : List Char) (tt : TokenType)
    (b : TokenBuilder) (hs : lineInv s) (hb : 1 ≤ b.line) :
    lineInv (s.addToken chars tt b) := by
  obtain ⟨h1, h2⟩ := hs
  refine ⟨h1, ?_⟩
  intro t ht
  simp only [Scanner.addToken, List.mem_append, List.mem_singleton] at ht
  rcases ht with ht | ht
  · exact h2 t ht
  · subst ht
    simpa [TokenBuilder.build, foldl_appendLexeme_line, TokenBuilder.tokenType] using hb

theorem commentGo_line_tokens (n : Nat) (s : Scanner) :
    (commentGo n s).loc.line = s.loc.line ∧ (commentGo n s).tokens = s.tokens := by
  induction n generalizing s with
  | zero => exact ⟨rfl, rfl⟩
  | succ n ih =>
      simp only [commentGo]
      split
      · exact ih _
      · exact ⟨rfl, rfl⟩

theorem stringGo_facts (n : Nat) (s : Scanner) (b : TokenBuilder)
    {s₁ : Scanner} {b₁ : TokenBuilder} (h : stringGo n s b = (s₁, b₁)) :
    s.loc.line ≤ s₁.loc.line ∧ s₁.tokens = s.tokens ∧ b₁.line = b.line := by
  induction n generalizing s b with
  | zero =>
      simp only [stringGo] at h
      cases h
      exact ⟨le_refl _, rfl, rfl⟩
  | succ n ih =>
      simp only [stringGo] at h
      split at h
      · split at h
        · obtain ⟨ih1, ih2, ih3⟩ := ih _ _ h
          refine ⟨le_trans ?_ ih1, ih2, by simpa [TokenBuilder.appendLexeme] using ih3⟩
          simp [Scanner.next]
        · obtain ⟨ih1, ih2, ih3⟩ := ih _ _ h
          refine ⟨le_trans ?_ ih1, ih2, by simpa [TokenBuilder.appendLexeme] using ih3⟩
          simp [Scanner.next]
      · cases h
        exact ⟨le_refl _, rfl, rfl⟩

theorem addString_lineInv (fuel : Nat) (s : Scanner) (b : TokenBuilder)
    (s' : Scanner) (h : addString fuel s b = .ok s') (hs : lineInv s) :
    lineInv s' := by
  obtain ⟨h1, h2⟩ := hs
  simp only [addString] at h
  cases hP : stringGo fuel s ((b.tokenType TokenType.String).location s.loc.column s.loc.line) with
  | mk s₁ b₁ =>
      rw [hP] at h
      obtain ⟨hg1, hg2, hg3⟩ := stringGo_facts fuel s _ hP
      split at h
      · cases h
      · cases h
        constructor
        · simpa [Scanner.next] using le_trans h1 hg1
        · intro t ht
          simp only [Scanner.next, List.mem_append, List.mem_singleton] at ht
          rcases ht with ht | ht
          · rw [hg2] at ht
            exact h2 t ht
          · subst ht
            simp only [TokenBuilder.build]
            rw [hg3]
            simpa [TokenBuilder.location, TokenBuilder.tokenType] using h1

theorem digitsGo_facts (n : Nat) (s : Scanner) (b : TokenBuilder)
    {s₁ : Scanner} {b₁ : TokenBuilder} (h : digitsGo n s b = (s₁, b₁)) :
    s₁.loc.line = s.loc.line ∧ s₁.tokens = s.tokens ∧ b₁.line = b.line := by
  induction n generalizing s b with
  | zero =>
      simp only [digitsGo] at h
      cases h
      exact ⟨rfl, rfl, rfl⟩
  | succ n ih =>
      simp only [digitsGo] at h
      split at h
      · obtain ⟨ih1, ih2, ih3⟩ := ih _ _ h
        exact ⟨ih1, ih2, by simpa [TokenBuilder.appendLexeme] using ih3⟩
      · cases h
        exact ⟨rfl, rfl, rfl⟩

theorem identGo_facts (n : Nat) (s : Scanner) (b : TokenBuilder)
    {s₁ : Scanner} {b₁ : TokenBuilder} (h : identGo n s b = (s₁, b₁)) :
    s₁.loc.line = s.loc.line ∧ s₁.tokens = s.tokens ∧ b₁.line = b.line := by
  induction n generalizing s b with
  | zero =>
      simp only [identGo] at h
      cases h
      exact ⟨rfl, rfl, rfl⟩
  | succ n ih =>
      simp only [identGo] at h
      split at h
      · obtain ⟨ih1, ih2, ih3⟩ := ih _ _ h
        exact ⟨ih1, ih2, by simpa [TokenBuilder.appendLexeme] using ih3⟩
      · cases h
        exact ⟨rfl, rfl, rfl⟩

theorem addNumber_lineInv (fuel : Nat) (s : Scanner) (b : TokenBuilder)
    (s' : Scanner) (h : addNumber fuel s b = .ok s') (hs : lineInv s)
    (hb : 1 ≤ b.line) : lineInv s' := by
  obtain ⟨h1, h2⟩ := hs
  simp only [addNumber] at h
  cases hP : digitsGo fuel s (b.tokenType TokenType.Number) with
  | mk s₁ b₁ =>
      rw [hP] at h
      obtain ⟨hg1, hg2, hg3⟩ := digitsGo_facts fuel s _ hP
      have hb₁ : 1 ≤ b₁.line := by
        rw [hg3]; simpa [TokenBuilder.tokenType] using hb
      split at h
      · cases hQ : digitsGo fuel (s₁.next).2 (b₁.appendLexeme (s₁.next).1) with
        | mk s₃ b₃ =>
            rw [hQ] at h
            cases h
            obtain ⟨hh1, hh2, hh3⟩ := digitsGo_facts fuel (s₁.next).2 _ hQ
            constructor
            · rw [hh1]
              simp only [Scanner.next]
              rw [hg1]
              exact h1
            · intro t ht
              simp only [List.mem_append, List.mem_singleton] at ht
              rcases ht with ht | ht
              · rw [hh2] at ht
                simp only [Scanner.next] at ht
                rw [hg2] at ht
                exact h2 t ht
              · subst ht
                simp only [TokenBuilder.build]
                rw [hh3]
                simpa [TokenBuilder.appendLexeme] using hb₁
      · cases h
        constructor
        · rw [hg1]; exact h1
        · intro t ht
          simp only [List.mem_append, List.mem_singleton] at ht
          rcases ht with ht | ht
          · rw [hg2] at ht
            exact h2 t ht
          · subst ht
            simp only [TokenBuilder.build]
            rw [hg3]
            simpa [TokenBuilder.tokenType] using hb

theorem addIdentifier_lineInv (fuel : Nat) (s : Scanner) (b : TokenBuilder)
    (hs : lineInv s) (hb : 1 ≤ b.line) : lineInv (addIdentifier fuel s b) := by
  obtain ⟨h1, h2⟩ := hs
  simp only [addIdentifier]
  cases hP : identGo fuel s (b.tokenType TokenType.Identifier) with
  | mk s₁ b₁ =>
      obtain ⟨hg1, hg2, hg3⟩ := identGo_facts fuel s _ hP
      have hb₁ : 1 ≤ b₁.line := by
        rw [hg3]; simpa [TokenBuilder.tokenType] using hb
      constructor
      · rw [hg1]; exact h1
      · intro t ht
        simp only [List.mem_append, List.mem_singleton] at ht
        rcases ht with ht | ht
        · rw [hg2] at ht
          exact h2 t ht
        · subst ht
          split
          · simpa [TokenBuilder.build, TokenBuilder.tokenType] using hb₁
          · simpa [TokenBuilder.build] using hb₁


theorem nextIf_facts (s : Scanner) (f : Char → Bool) {c : Char} {s₂ : Scanner}
    (h : s.nextIf f = some (c, s₂)) :
    s₂.loc.line = s.loc.line ∧ s₂.tokens = s.tokens := by
  simp only [Scanner.nextIf] at h
  split at h
  · cases h
  · split at h
    · injection h with h'
      have h2 : s₂ = (s.next).2 := by rw [h']
      rw [h2]
      exact ⟨rfl, rfl⟩
    · cases h

set_option maxHeartbeats 1600000 in
theorem scanToken_lineInv (fuel : Nat) (s : Scanner) (s' : Scanner)
    (h : scanToken fuel s = .ok s') (hs : lineInv s) : lineInv s' := by
  obtain ⟨h1, h2⟩ := hs
  simp only [scanToken] at h
  cases hN : s.next with
  | mk ch s₁ =>
      rw [hN] at h
      dsimp only [] at h
      have hs₁ : (s.next).2 = s₁ := by rw [hN]
      have hline : s₁.loc.line = s.loc.line := by rw [← hs₁]; rfl
      have htok : s₁.tokens = s.tokens := by rw [← hs₁]; rfl
      have inv₁ : lineInv s₁ := ⟨by rw [hline]; exact h1, by rw [htok]; exact h2⟩
      have hbl : 1 ≤ (TokenBuilder.default.location s.loc.column s.loc.line).line := h1
      cases hE : s₁.nextIf (fun c => c = '=') with
      | some p =>
          rcases p with ⟨c2, s₂⟩
          obtain ⟨he1, he2⟩ := nextIf_facts s₁ _ hE
          have inv₂ : lineInv s₂ := ⟨by rw [he1]; exact inv₁.1, by rw [he2]; exact inv₁.2⟩
          rw [hE] at h
          cases hSl : s₁.nextIf (fun c => c = '/') with
          | some q =>
              rcases q with ⟨c3, s₃⟩
              obtain ⟨hf1, hf2⟩ := nextIf_facts s₁ _ hSl
              rw [hSl] at h
              dsimp only [] at h
              have hBL : lineInv { s₁ with loc := { s₁.loc with line := s₁.loc.line + 1 } } :=
                ⟨Nat.le_succ_of_le inv₁.1, inv₁.2⟩
              have hAI : lineInv (addIdentifier fuel s₁
                  ((TokenBuilder.default.location s.loc.column s.loc.line).appendLexeme ch)) :=
                addIdentifier_lineInv _ _ _ inv₁ h1
              generalize hg1 : ({ s₁ with loc := { s₁.loc with line := s₁.loc.line + 1 } } : Scanner) = w1 at h hBL
              generalize hg3 : addIdentifier fuel s₁
                  ((TokenBuilder.default.location s.loc.column s.loc.line).appendLexeme ch) = w3 at h hAI
              have hCG : lineInv (commentGo fuel s₃) :=
                ⟨by rw [(commentGo_line_tokens fuel s₃).1, hf1]; exact inv₁.1,
                 by rw [(commentGo_line_tokens fuel s₃).2, hf2]; exact inv₁.2⟩
              generalize hg2 : commentGo fuel s₃ = w2 at h hCG
              by_cases hc0 : ch = ' ' ∨ ch = '\r' ∨ ch = '\t'
              · rw [if_pos hc0] at h
                cases h; exact inv₁
              · rw [if_neg hc0] at h
                by_cases hc1 : ch = '\n'
                · rw [if_pos hc1] at h
                  cases h; exact hBL
                · rw [if_neg hc1] at h
                  by_cases hc2 : ch = '('
                  · rw [if_pos hc2] at h
                    cases h; exact addToken_lineInv _ _ _ _ inv₁ hbl
                  · rw [if_neg hc2] at h
                    by_cases hc3 : ch = ')'
                    · rw [if_pos hc3] at h
                      cases h; exact addToken_lineInv _ _ _ _ inv₁ hbl
                    · rw [if_neg hc3] at h
                      by_cases hc4 : ch = '{'
                      · rw [if_pos hc4] at h
                        cases h; exact addToken_lineInv _ _ _ _ inv₁ hbl
                      · rw [if_neg hc4] at h
                        by_cases hc5 : ch = '}'
                        · rw [if_pos hc5] at h
                          cases h; exact addToken_lineInv _ _ _ _ inv₁ hbl
                        · rw [if_neg hc5] at h
                          by_cases hc6 : ch = ','
                          · rw [if_pos hc6] at h
                            cases h; exact addToken_lineInv _ _ _ _ inv₁ hbl
                          · rw [if_neg hc6] at h
                            by_cases hc7 : ch = '.'
                            · rw [if_pos hc7] at h
                              cases h; exact addToken_lineInv _ _ _ _ inv₁ hbl
                            · rw [if_neg hc7] at h
                              by_cases hc8 : ch = '-'
                              · rw [if_pos hc8] at h
                                cases h; exact addToken_lineInv _ _ _ _ inv₁ hbl
                              · rw [if_neg hc8] at h
                                by_cases hc9 : ch = '+'
                                · rw [if_pos hc9] at h
                                  cases h; exact addToken_lineInv _ _ _ _ inv₁ hbl
                                · rw [if_neg hc9] at h
                                  by_cases hc10 : ch = ';'
                                  · rw [if_pos hc10] at h
                                    cases h; exact addToken_lineInv _ _ _ _ inv₁ hbl
                                  · rw [if_neg hc10] at h
                                    by_cases hc11 : ch = '*'
                                    · rw [if_pos hc11] at h
                                      cases h; exact addToken_lineInv _ _ _ _ inv₁ hbl
                                    · rw [if_neg hc11] at h
                                      by_cases hc12 : ch = '!'
                                      · rw [if_pos hc12] at h
                                        cases h; exact addToken_lineInv _ _ _ _ inv₂ hbl
                                      · rw [if_neg hc12] at h
                                        by_cases hc13 : ch = '='
                                        · rw [if_pos hc13] at h
                                          cases h; exact addToken_lineInv _ _ _ _ inv₂ hbl
                                        · rw [if_neg hc13] at h
                                          by_cases hc14 : ch = '<'
                                          · rw [if_pos hc14] at h
                                            cases h; exact addToken_lineInv _ _ _ _ inv₂ hbl
                                          · rw [if_neg hc14] at h
                                            by_cases hc15 : ch = '>'
                                            · rw [if_pos hc15] at h
                                              cases h; exact addToken_lineInv _ _ _ _ inv₂ hbl
                                            · rw [if_neg hc15] at h
                                              by_cases hc16 : ch = '/'
                                              · rw [if_pos hc16] at h
                                                cases h; exact hCG
                                              · rw [if_neg hc16] at h
                                                by_cases hc17 : ch = '\"'
                                                · rw [if_pos hc17] at h
                                                  exact addString_lineInv _ _ _ _ h inv₁
                                                · rw [if_neg hc17] at h
                                                  by_cases hc18 : ch.isDigit = true
                                                  · rw [if_pos hc18] at h
                                                    exact addNumber_lineInv _ _ _ _ h inv₁ h1
                                                  · rw [if_neg hc18] at h
                                                    by_cases hc19 : isAlphaChar ch = true
                                                    · rw [if_pos hc19] at h
                                                      cases h; exact hAI
                                                    · rw [if_neg hc19] at h
                                                      exact Except.noConfusion h
          | none =>
              rw [hSl] at h
              dsimp only [] at h
              have hBL : lineInv { s₁ with loc := { s₁.loc with line := s₁.loc.line + 1 } } :=
                ⟨Nat.le_succ_of_le inv₁.1, inv₁.2⟩
              have hAI : lineInv (addIdentifier fuel s₁
                  ((TokenBuilder.default.location s.loc.column s.loc.line).appendLexeme ch)) :=
                addIdentifier_lineInv _ _ _ inv₁ h1
              generalize hg1 : ({ s₁ with loc := { s₁.loc with line := s₁.loc.line + 1 } } : Scanner) = w1 at h hBL
              generalize hg3 : addIdentifier fuel s₁
                  ((TokenBuilder.default.location s.loc.column s.loc.line).appendLexeme ch) = w3 at h hAI
              by_cases hc0 : ch = ' ' ∨ ch = '\r' ∨ ch = '\t'
              · rw [if_pos hc0] at h
                cases h; exact inv₁
              · rw [if_neg hc0] at h
                by_cases hc1 : ch = '\n'
                · rw [if_pos hc1] at h
                  cases h; exact hBL
                · rw [if_neg hc1] at h
                  by_cases hc2 : ch = '('
                  · rw [if_pos hc2] at h
                    cases h; exact addToken_lineInv _ _ _ _ inv₁ hbl
                  · rw [if_neg hc2] at h
                    by_cases hc3 : ch = ')'
                    · rw [if_pos hc3] at h
                      cases h; exact addToken_lineInv _ _ _ _ inv₁ hbl
                    · rw [if_neg hc3] at h
                      by_cases hc4 : ch = '{'
                      · rw [if_pos hc4] at h
                        cases h; exact addToken_lineInv _ _ _ _ inv₁ hbl
                      · rw [if_neg hc4] at h
                        by_cases hc5 : ch = '}'
                        · rw [if_pos hc5] at h
                          cases h; exact addToken_lineInv _ _ _ _ inv₁ hbl
                        · rw [if_neg hc5] at h
                          by_cases hc6 : ch = ','
                          · rw [if_pos hc6] at h
                            cases h; exact addToken_lineInv _ _ _ _ inv₁ hbl
                          · rw [if_neg hc6] at h
                            by_cases hc7 : ch = '.'
                            · rw [if_pos hc7] at h
                              cases h; exact addToken_lineInv _ _ _ _ inv₁ hbl
                            · rw [if_neg hc7] at h
                              by_cases hc8 : ch = '-'
                              · rw [if_pos hc8] at h
                                cases h; exact addToken_lineInv _ _ _ _ inv₁ hbl
                              · rw [if_neg hc8] at h
                                by_cases hc9 : ch = '+'
                                · rw [if_pos hc9] at h
                                  cases h; exact addToken_lineInv _ _ _ _ inv₁ hbl
                                · rw [if_neg hc9] at h
                                  by_cases hc10 : ch = ';'
                                  · rw [if_pos hc10] at h
                                    cases h; exact addToken_lineInv _ _ _ _ inv₁ hbl
                                  · rw [if_neg hc10] at h
                                    by_cases hc11 : ch = '*'
                                    · rw [if_pos hc11] at h
                                      cases h; exact addToken_lineInv _ _ _ _ inv₁ hbl
                                    · rw [if_neg hc11] at h
                                      by_cases hc12 : ch = '!'
                                      · rw [if_pos hc12] at h
                                        cases h; exact addToken_lineInv _ _ _ _ inv₂ hbl
                                      · rw [if_neg hc12] at h
                                        by_cases hc13 : ch = '='
                                        · rw [if_pos hc13] at h
                                          cases h; exact addToken_lineInv _ _ _ _ inv₂ hbl
                                        · rw [if_neg hc13] at h
                                          by_cases hc14 : ch = '<'
                                          · rw [if_pos hc14] at h
                                            cases h; exact addToken_lineInv _ _ _ _ inv₂ hbl
                                          · rw [if_neg hc14] at h
                                            by_cases hc15 : ch = '>'
                                            · rw [if_pos hc15] at h
                                              cases h; exact addToken_lineInv _ _ _ _ inv₂ hbl
                                            · rw [if_neg hc15] at h
                                              by_cases hc16 : ch = '/'
                                              · rw [if_pos hc16] at h
                                                cases h; exact addToken_lineInv _ _ _ _ inv₁ hbl
                                              · rw [if_neg hc16] at h
                                                by_cases hc17 : ch = '\"'
                                                · rw [if_pos hc17] at h
                                                  exact addString_lineInv _ _ _ _ h inv₁
                                                · rw [if_neg hc17] at h
                                                  by_cases hc18 : ch.isDigit = true
                                                  · rw [if_pos hc18] at h
                                                    exact addNumber_lineInv _ _ _ _ h inv₁ h1
                                                  · rw [if_neg hc18] at h
                                                    by_cases hc19 : isAlphaChar ch = true
                                                    · rw [if_pos hc19] at h
                                                      cases h; exact hAI
                                                    · rw [if_neg hc19] at h
                                                      exact Except.noConfusion h
      | none =>
          rw [hE] at h
          cases hSl : s₁.nextIf (fun c => c = '/') with
          | some q =>
              rcases q with ⟨c3, s₃⟩
              obtain ⟨hf1, hf2⟩ := nextIf_facts s₁ _ hSl
              rw [hSl] at h
              dsimp only [] at h
              have hBL : lineInv { s₁ with loc := { s₁.loc with line := s₁.loc.line + 1 } } :=
                ⟨Nat.le_succ_of_le inv₁.1, inv₁.2⟩
              have hAI : lineInv (addIdentifier fuel s₁
                  ((TokenBuilder.default.location s.loc.column s.loc.line).appendLexeme ch)) :=
                addIdentifier_lineInv _ _ _ inv₁ h1
              generalize hg1 : ({ s₁ with loc := { s₁.loc with line := s₁.loc.line + 1 } } : Scanner) = w1 at h hBL
              generalize hg3 : addIdentifier fuel s₁
                  ((TokenBuilder.default.location s.loc.column s.loc.line).appendLexeme ch) = w3 at h hAI
              have hCG : lineInv (commentGo fuel s₃) :=
                ⟨by rw [(commentGo_line_tokens fuel s₃).1, hf1]; exact inv₁.1,
                 by rw [(commentGo_line_tokens fuel s₃).2, hf2]; exact inv₁.2⟩
              generalize hg2 : commentGo fuel s₃ = w2 at h hCG
              by_cases hc0 : ch = ' ' ∨ ch = '\r' ∨ ch = '\t'
              · rw [if_pos hc0] at h
                cases h; exact inv₁
              · rw [if_neg hc0] at h
                by_cases hc1 : ch = '\n'
                · rw [if_pos hc1] at h
                  cases h; exact hBL
                · rw [if_neg hc1] at h
                  by_cases hc2 : ch = '('
                  · rw [if_pos hc2] at h
                    cases h; exact addToken_lineInv _ _ _ _ inv₁ hbl
                  · rw [if_neg hc2] at h
                    by_cases hc3 : ch = ')'
                    · rw [if_pos hc3] at h
                      cases h; exact addToken_lineInv _ _ _ _ inv₁ hbl
                    · rw [if_neg hc3] at h
                      by_cases hc4 : ch = '{'
                      · rw [if_pos hc4] at h
                        cases h; exact addToken_lineInv _ _ _ _ inv₁ hbl
                      · rw [if_neg hc4] at h
                        by_cases hc5 : ch = '}'
                        · rw [if_pos hc5] at h
                          cases h; exact addToken_lineInv _ _ _ _ inv₁ hbl
                        · rw [if_neg hc5] at h
                          by_cases hc6 : ch = ','
                          · rw [if_pos hc6] at h
                            cases h; exact addToken_lineInv _ _ _ _ inv₁ hbl
                          · rw [if_neg hc6] at h
                            by_cases hc7 : ch = '.'
                            · rw [if_pos hc7] at h
                              cases h; exact addToken_lineInv _ _ _ _ inv₁ hbl
                            · rw [if_neg hc7] at h
                              by_cases hc8 : ch = '-'
                              · rw [if_pos hc8] at h
                                cases h; exact addToken_lineInv _ _ _ _ inv₁ hbl
                              · rw [if_neg hc8] at h
                                by_cases hc9 : ch = '+'
                                · rw [if_pos hc9] at h
                                  cases h; exact addToken_lineInv _ _ _ _ inv₁ hbl
                                · rw [if_neg hc9] at h
                                  by_cases hc10 : ch = ';'
                                  · rw [if_pos hc10] at h
                                    cases h; exact addToken_lineInv _ _ _ _ inv₁ hbl
                                  · rw [if_neg hc10] at h
                                    by_cases hc11 : ch = '*'
                                    · rw [if_pos hc11] at h
                                      cases h; exact addToken_lineInv _ _ _ _ inv₁ hbl
                                    · rw [if_neg hc11] at h
                                      by_cases hc12 : ch = '!'
                                      · rw [if_pos hc12] at h
                                        cases h; exact addToken_lineInv _ _ _ _ inv₁ hbl
                                      · rw [if_neg hc12] at h
                                        by_cases hc13 : ch = '='
                                        · rw [if_pos hc13] at h
                                          cases h; exact addToken_lineInv _ _ _ _ inv₁ hbl
                                        · rw [if_neg hc13] at h
                                          by_cases hc14 : ch = '<'
                                          · rw [if_pos hc14] at h
                                            cases h; exact addToken_lineInv _ _ _ _ inv₁ hbl
                                          · rw [if_neg hc14] at h
                                            by_cases hc15 : ch = '>'
                                            · rw [if_pos hc15] at h
                                              cases h; exact addToken_lineInv _ _ _ _ inv₁ hbl
                                            · rw [if_neg hc15] at h
                                              by_cases hc16 : ch = '/'
                                              · rw [if_pos hc16] at h
                                                cases h; exact hCG
                                              · rw [if_neg hc16] at h
                                                by_cases hc17 : ch = '\"'
                                                · rw [if_pos hc17] at h
                                                  exact addString_lineInv _ _ _ _ h inv₁
                                                · rw [if_neg hc17] at h
                                                  by_cases hc18 : ch.isDigit = true
                                                  · rw [if_pos hc18] at h
                                                    exact addNumber_lineInv _ _ _ _ h inv₁ h1
                                                  · rw [if_neg hc18] at h
                                                    by_cases hc19 : isAlphaChar ch = true
                                                    · rw [if_pos hc19] at h
                                                      cases h; exact hAI
                                                    · rw [if_neg hc19] at h
                                                      exact Except.noConfusion h
          | none =>
              rw [hSl] at h
              dsimp only [] at h
              have hBL : lineInv { s₁ with loc := { s₁.loc with line := s₁.loc.line + 1 } } :=
                ⟨Nat.le_succ_of_le inv₁.1, inv₁.2⟩
              have hAI : lineInv (addIdentifier fuel s₁
                  ((TokenBuilder.default.location s.loc.column s.loc.line).appendLexeme ch)) :=
                addIdentifier_lineInv _ _ _ inv₁ h1
              generalize hg1 : ({ s₁ with loc := { s₁.loc with line := s₁.loc.line + 1 } } : Scanner) = w1 at h hBL
              generalize hg3 : addIdentifier fuel s₁
                  ((TokenBuilder.default.location s.loc.column s.loc.line).appendLexeme ch) = w3 at h hAI
              by_cases hc0 : ch = ' ' ∨ ch = '\r' ∨ ch = '\t'
              · rw [if_pos hc0] at h
                cases h; exact inv₁
              · rw [if_neg hc0] at h
                by_cases hc1 : ch = '\n'
                · rw [if_pos hc1] at h
                  cases h; exact hBL
                · rw [if_neg hc1] at h
                  by_cases hc2 : ch = '('
                  · rw [if_pos hc2] at h
                    cases h; exact addToken_lineInv _ _ _ _ inv₁ hbl
                  · rw [if_neg hc2] at h
                    by_cases hc3 : ch = ')'
                    · rw [if_pos hc3] at h
                      cases h; exact addToken_lineInv _ _ _ _ inv₁ hbl
                    · rw [if_neg hc3] at h
                      by_cases hc4 : ch = '{'
                      · rw [if_pos hc4] at h
                        cases h; exact addToken_lineInv _ _ _ _ inv₁ hbl
                      · rw [if_neg hc4] at h
                        by_cases hc5 : ch = '}'
                        · rw [if_pos hc5] at h
                          cases h; exact addToken_lineInv _ _ _ _ inv₁ hbl
                        · rw [if_neg hc5] at h
                          by_cases hc6 : ch = ','
                          · rw [if_pos hc6] at h
                            cases h; exact addToken_lineInv _ _ _ _ inv₁ hbl
                          · rw [if_neg hc6] at h
                            by_cases hc7 : ch = '.'
                            · rw [if_pos hc7] at h
                              cases h; exact addToken_lineInv _ _ _ _ inv₁ hbl
                            · rw [if_neg hc7] at h
                              by_cases hc8 : ch = '-'
                              · rw [if_pos hc8] at h
                                cases h; exact addToken_lineInv _ _ _ _ inv₁ hbl
                              · rw [if_neg hc8] at h
                                by_cases hc9 : ch = '+'
                                · rw [if_pos hc9] at h
                                  cases h; exact addToken_lineInv _ _ _ _ inv₁ hbl
                                · rw [if_neg hc9] at h
                                  by_cases hc10 : ch = ';'
                                  · rw [if_pos hc10] at h
                                    cases h; exact addToken_lineInv _ _ _ _ inv₁ hbl
                                  · rw [if_neg hc10] at h
                                    by_cases hc11 : ch = '*'
                                    · rw [if_pos hc11] at h
                                      cases h; exact addToken_lineInv _ _ _ _ inv₁ hbl
                                    · rw [if_neg hc11] at h
                                      by_cases hc12 : ch = '!'
                                      · rw [if_pos hc12] at h
                                        cases h; exact addToken_lineInv _ _ _ _ inv₁ hbl
                                      · rw [if_neg hc12] at h
                                        by_cases hc13 : ch = '='
                                        · rw [if_pos hc13] at h
                                          cases h; exact addToken_lineInv _ _ _ _ inv₁ hbl
                                        · rw [if_neg hc13] at h
                                          by_cases hc14 : ch = '<'
                                          · rw [if_pos hc14] at h
                                            cases h; exact addToken_lineInv _ _ _ _ inv₁ hbl
                                          · rw [if_neg hc14] at h
                                            by_cases hc15 : ch = '>'
                                            · rw [if_pos hc15] at h
                                              cases h; exact addToken_lineInv _ _ _ _ inv₁ hbl
                                            · rw [if_neg hc15] at h
                                              by_cases hc16 : ch = '/'
                                              · rw [if_pos hc16] at h
                                                cases h; exact addToken_lineInv _ _ _ _ inv₁ hbl
                                              · rw [if_neg hc16] at h
                                                by_cases hc17 : ch = '\"'
                                                · rw [if_pos hc17] at h
                                                  exact addString_lineInv _ _ _ _ h inv₁
                                                · rw [if_neg hc17] at h
                                                  by_cases hc18 : ch.isDigit = true
                                                  · rw [if_pos hc18] at h
                                                    exact addNumber_lineInv _ _ _ _ h inv₁ h1
                                                  · rw [if_neg hc18] at h
                                                    by_cases hc19 : isAlphaChar ch = true
                                                    · rw [if_pos hc19] at h
                                                      cases h; exact hAI
                                                    · rw [if_neg hc19] at h
                                                      exact Except.noConfusion h
theorem runGo_lineInv (fuel : Nat) (s : Scanner) (s' : Scanner)
    (h : runGo fuel s = .ok s') (hs : lineInv s) : lineInv s' := by
  induction fuel generalizing s with
  | zero => simp [runGo] at h
  | succ n ih =>
      simp only [runGo] at h
      split at h
      · cases h
        exact addToken_lineInv _ _ _ _ hs hs.1
      · cases hst : scanToken n s with
        | ok s₁ =>
            rw [hst] at h
            exact ih s₁ h (scanToken_lineInv n s s₁ hst hs)
        | error e =>
            rw [hst] at h
            cases h


/-! ## Claim theorems: scanner -/

/-- Claim C5, counterexample: scanning `ab\ncd` gives the token `ab` the
column 0 (the claim requires `column ≥ 1`) and the token `cd` — the first
token after the newline — the column 3 (the claim requires the newline to
reset the column counter). -/
theorem C5_column_zero_based_counterexample :
    ((Scanner.new "ab\ncd").run).map
        (fun sc => sc.tokens.map (fun t => (t.loc.column, t.loc.line))) =
      .ok [(0, 1), (3, 2), (5, 2)] ∧ ¬ (1 : Nat) ≤ 0 :=
  ⟨by decide, by decide⟩

/-- Claim C5 (amended): every token of a successful scan has `line ≥ 1`
(the line counter starts at 1 and only grows), and a `\n` in the source
advances the line counter by one but does not reset the column counter —
the column, like `len`, simply counts one more consumed character — and
emits no token. -/
theorem C5_token_lines_positive_newline_no_column_reset :
    (∀ (src : String) (s' : Scanner), (Scanner.new src).run = .ok s' →
        ∀ t ∈ s'.tokens, 1 ≤ t.loc.line) ∧
    (∀ (fuel : Nat) (s : Scanner), s.isAtEnd = false →
        s.source.getD s.loc.len (Char.ofNat 0) = '\n' →
        scanToken fuel s =
          .ok { s with loc := { column := s.loc.column + 1, line := s.loc.line + 1,
                                len := s.loc.len + 1 } }) := by
  constructor
  · intro src s' h t ht
    have hnew : lineInv (Scanner.new src) := by
      constructor
      · exact le_refl 1
      · intro t2 ht2
        simp [Scanner.new] at ht2
    simp only [Scanner.run, Scanner.new] at h
    exact (runGo_lineInv _ _ _ h hnew).2 t ht
  · intro fuel s hend hch
    simp only [scanToken, Scanner.next]
    rw [hch]
    rw [if_neg (by decide), if_pos rfl]

/-- Claim C5 (amended), instance: consuming the `\n` of the one-character
source advances the line to 2 and the column to 1 (no reset), with no token
emitted. -/
theorem C5_token_lines_positive_newline_no_column_reset_witness :
    scanToken 3 { source := ['\n'], tokens := [], loc := ⟨0, 1, 0⟩ } =
      .ok { source := ['\n'], tokens := [],
            loc := { column := 0 + 1, line := 1 + 1, len := 0 + 1 } } :=
  C5_token_lines_positive_newline_no_column_reset.2 3
    { source := ['\n'], tokens := [], loc := ⟨0, 1, 0⟩ } (by decide) (by decide)


/-! ## Parser (`src/parser.rs`)

Parse errors carry a cause string (`ParserError { cause }`, from the
current-generation `errors.rs` as used by `parser.rs`). -/

/-- Parse errors. -/
structure ParserError where
  cause : String
deriving DecidableEq, Repr

/-- Parser state: the token list, the cursor, the `in_loop` flag for `break`
validity, and the strict-semicolon mode.  (The diagnostic output sink is
modelled by the error list that `parse` accumulates.) -/
structure Prs where
  tokens : List Token
  curr : Nat
  inLoop : Bool
  strict : Bool
deriving DecidableEq, Repr

/-- `Parser::new`. -/
def Prs.new (tokens : List Token) (strict : Bool) : Prs :=
  { tokens := tokens, curr := 0, inLoop := false, strict := strict }

/-- The out-of-range token (Rust indexing would panic; scanner output always
ends in `Eof`, so the cursor never passes the final `Eof` and this default is
only a totality device). -/
def defaultToken : Token :=
  { token_type := .Eof, lexeme := "", literal := .None, loc := ⟨0, 0, 0⟩ }

/-- `Parser::peek`. -/
def Prs.peek (p : Prs) : Token := p.tokens.getD p.curr defaultToken

/-- `Parser::previous`. -/
def Prs.previous (p : Prs) : Token := p.tokens.getD (p.curr - 1) defaultToken

/-- `Parser::is_at_end`. -/
def Prs.isAtEnd (p : Prs) : Bool :=
  if !p.tokens.isEmpty then p.peek.token_type == .Eof else true

/-- `Parser::advance`: step the cursor unless at the end; returns the
consumed token. -/
def Prs.advance (p : Prs) : Token × Prs :=
  let p₁ := if !p.isAtEnd then { p with curr := p.curr + 1 } else p
  (p₁.previous, p₁)

/-- `Parser::check`. -/
def Prs.check (p : Prs) (tt : TokenType) : Bool :=
  if p.isAtEnd then false else p.peek.token_type == tt

/-- `Parser::matches_token`: advance past the first matching kind. -/
def Prs.matchesToken (p : Prs) : List TokenType → Bool × Prs
  | [] => (false, p)
  | tt :: rest =>
      if p.check tt then (true, (p.advance).2) else p.matchesToken rest

/-- `Parser::consume`: require a token kind; in lenient mode a missing
semicolon is synthesized as a default-built token. -/
def Prs.consume (p : Prs) (tt : TokenType) (msg : String) :
    Except ParserError Token × Prs :=
  if p.check tt then
    let (tok, p₁) := p.advance
    (.ok tok, p₁)
  else if !p.strict && tt == .Semicolon then
    (.ok TokenBuilder.default.build, p)
  else
    (.error ⟨msg⟩, p)

theorem Prs.curr_lt_of_not_isAtEnd (p : Prs) (h : p.isAtEnd = false) :
    p.curr < p.tokens.length := by
  simp only [Prs.isAtEnd] at h
  by_cases he : p.tokens.isEmpty
  · simp [he] at h
  · simp only [he, Bool.not_false, if_true] at h
    by_cases hlt : p.curr < p.tokens.length
    · exact hlt
    · exfalso
      have : p.peek = defaultToken := by
        simp only [Prs.peek]
        exact List.getD_eq_default _ _ (Nat.le_of_not_lt hlt)
      rw [this] at h
      simp [defaultToken] at h

theorem Prs.advance_of_not_isAtEnd (p : Prs) (h : p.isAtEnd = false) :
    (p.advance).2 = { p with curr := p.curr + 1 } := by
  simp [Prs.advance, h]

/-- Whether a token kind is one of the synchronization points of
`Parser::synchronize`. -/
def isSyncPoint : TokenType → Bool
  | .Class | .Var | .For | .If | .While | .Print | .Return => true
  | _ => false

/-- The discard loop of `Parser::synchronize`: skip tokens until a
synchronization keyword or the end of input (fuel-recursive; the canonical
fuel in `synchronize` is large enough for the loop never to be cut short,
which `syncGo_spec` depends on). -/
def synchronizeGo : Nat → Prs → Prs
  | 0, p => p
  | n + 1, p =>
      if p.isAtEnd then p
      else if isSyncPoint (p.peek).token_type then p
      else synchronizeGo n (p.advance).2

/-- `Parser::synchronize`: advance one token, then discard until a
statement keyword is seen or the end is reached.  (Note: no case consumes a
`;`, and there is no `fun` keyword.) -/
def synchronize (p : Prs) : Prs :=
  synchronizeGo (p.tokens.length + 1) (p.advance).2

/-- The result of a parsing step: the Rust `Result` plus the mutated parser. -/
abbrev PRes (α : Type) := Except ParserError α × Prs

/-- Monadic helper mirroring Rust `?`: propagate the error together with the
parser state reached so far. -/
def pbind {α β : Type} (r : PRes α) (f : α → Prs → PRes β) : PRes β :=
  match r with
  | (.ok a, p) => f a p
  | (.error e, p) => (.error e, p)

mutual

/-- `Parser::declaration`. -/
def declaration : Nat → Prs → PRes Statement
  | 0, p => (.error ⟨"out of fuel"⟩, p)
  | n + 1, p =>
      let (m, p) := p.matchesToken [.Var]
      if m then varDeclaration n p else statement n p

/-- `Parser::var_declaration`. -/
def varDeclaration : Nat → Prs → PRes Statement
  | 0, p => (.error ⟨"out of fuel"⟩, p)
  | n + 1, p =>
      pbind (p.consume .Identifier "expect a variable name") fun name p =>
        let (m, p) := p.matchesToken [.Equal]
        if m then
          pbind (expression n p) fun e p =>
            pbind (p.consume .Semicolon "expect ; after declaration") fun _ p =>
              (.ok (.Var name (some e)), p)
        else
          pbind (p.consume .Semicolon "expect ; after declaration") fun _ p =>
            (.ok (.Var name none), p)

/-- `Parser::statement`. -/
def statement : Nat → Prs → PRes Statement
  | 0, p => (.error ⟨"out of fuel"⟩, p)
  | n + 1, p =>
      let (m, p) := p.matchesToken [.Print]
      if m then printStatement n p else
      let (m, p) := p.matchesToken [.If]
      if m then ifStatement n p else
      let (m, p) := p.matchesToken [.For]
      if m then forStatement n p else
      let (m, p) := p.matchesToken [.While]
      if m then whileStatement n p else
      let (m, p) := p.matchesToken [.LeftBrace]
      if m then blockStmt n p else
      let (m, p) := p.matchesToken [.Break]
      if m then
        if !p.inLoop then
          (.error ⟨"break can not be used outside a loop"⟩, p)
        else
          pbind (p.consume .Semicolon "expect ; after break") fun _ p =>
            (.ok .Break, p)
      else exprStatement n p

/-- The declaration loop of `Parser::block`. -/
def blockGo : Nat → Prs → List Statement → PRes (List Statement)
  | 0, p, _ => (.error ⟨"out of fuel"⟩, p)
  | n + 1, p, acc =>
      if !p.check .RightBrace && !p.isAtEnd then
        pbind (declaration n p) fun stmt p => blockGo n p (acc ++ [stmt])
      else (.ok acc, p)

/-- `Parser::block`. -/
def blockStmt : Nat → Prs → PRes Statement
  | 0, p => (.error ⟨"out of fuel"⟩, p)
  | n + 1, p =>
      pbind (blockGo n p []) fun stmts p =>
        pbind (p.consume .RightBrace "expect closing brace after block") fun _ p =>
          (.ok (.Block stmts), p)

/-- `Parser::for_statement` up to and including the `(` and the loop-flag
bookkeeping; the rest is `forStatementRest`. -/
def forStatement : Nat → Prs → PRes Statement
  | 0, p => (.error ⟨"out of fuel"⟩, p)
  | n + 1, p =>
      let loopStateSet := !p.inLoop
      let p := if !p.inLoop then { p with inLoop := true } else p
      pbind (p.consume .LeftParen "expect ( after for") fun _ p =>
        let (m, p) := p.matchesToken [.Semicolon]
        if m then forStatementRest n p none loopStateSet
        else
          let (m2, p) := p.matchesToken [.Var]
          if m2 then
            pbind (varDeclaration n p) fun init p =>
              forStatementRest n p (some init) loopStateSet
          else
            pbind (exprStatement n p) fun init p =>
              forStatementRest n p (some init) loopStateSet

/-- The tail of `Parser::for_statement`: condition, increment, body and the
desugaring into `Block`/`While`. -/
def forStatementRest : Nat → Prs → Option Statement → Bool → PRes Statement
  | 0, p, _, _ => (.error ⟨"out of fuel"⟩, p)
  | n + 1, p, initializer, loopStateSet =>
      let condRes : PRes Expression :=
        if !p.check .Semicolon then expression n p
        else (.ok (.Literal (.Boolean true)), p)
      pbind condRes fun condition p =>
        pbind (p.consume .Semicolon "expect ; after loop condition") fun _ p =>
          let incRes : PRes (Option Expression) :=
            if !p.check .RightParen then
              pbind (expression n p) fun e p => (.ok (some e), p)
            else (.ok none, p)
          pbind incRes fun increment p =>
            pbind (p.consume .RightParen "expect ) after for clauses") fun _ p =>
              pbind (statement n p) fun body p =>
                let body := match increment with
                  | some incr => Statement.Block [body, .Expr incr]
                  | none => body
                let body := Statement.While condition body
                let body := match initializer with
                  | some init => Statement.Block [init, body]
                  | none => body
                let p := if loopStateSet then { p with inLoop := false } else p
                (.ok body, p)

/-- `Parser::while_statement`. -/
def whileStatement : Nat → Prs → PRes Statement
  | 0, p => (.error ⟨"out of fuel"⟩, p)
  | n + 1, p =>
      let loopStateSet := !p.inLoop
      let p := if !p.inLoop then { p with inLoop := true } else p
      pbind (p.consume .LeftParen "expect ( after while condition") fun _ p =>
        pbind (expression n p) fun cond p =>
          pbind (p.consume .RightParen "expect ) after while condition") fun _ p =>
            pbind (statement n p) fun body p =>
              let p := if loopStateSet then { p with inLoop := false } else p
              (.ok (.While cond body), p)

/-- `Parser::if_statement`. -/
def ifStatement : Nat → Prs → PRes Statement
  | 0, p => (.error ⟨"out of fuel"⟩, p)
  | n + 1, p =>
      pbind (p.consume .LeftParen "expect ( after if condition") fun _ p =>
        pbind (expression n p) fun cond p =>
          pbind (p.consume .RightParen "expect ) after if condition") fun _ p =>
            pbind (statement n p) fun thenB p =>
              let (m, p) := p.matchesToken [.Else]
              if m then
                pbind (statement n p) fun elseB p =>
                  (.ok (.If cond thenB (some elseB)), p)
              else (.ok (.If cond thenB none), p)

/-- `Parser::print_statement`. -/
def printStatement : Nat → Prs → PRes Statement
  | 0, p => (.error ⟨"out of fuel"⟩, p)
  | n + 1, p =>
      pbind (expression n p) fun e p =>
        pbind (p.consume .Semicolon "expected ; after expression.") fun _ p =>
          (.ok (.Print e), p)

/-- `Parser::expr_statement`. -/
def exprStatement : Nat → Prs → PRes Statement
  | 0, p => (.error ⟨"out of fuel"⟩, p)
  | n + 1, p =>
      pbind (expression n p) fun e p =>
        pbind (p.consume .Semicolon "expected ; after expression.") fun _ p =>
          (.ok (.Expr e), p)

/-- `Parser::expression`. -/
def expression : Nat → Prs → PRes Expression
  | 0, p => (.error ⟨"out of fuel"⟩, p)
  | n + 1, p => assignment n p

/-- `Parser::assignment` (right-associative). -/
def assignment : Nat → Prs → PRes Expression
  | 0, p => (.error ⟨"out of fuel"⟩, p)
  | n + 1, p =>
      pbind (logicalOr n p) fun expr p =>
        let (m, p) := p.matchesToken [.Equal]
        if m then
          let equals := p.previous
          pbind (assignment n p) fun value p =>
            match expr with
            | .Variable name => (.ok (.Assignment name value), p)
            | _ =>
                (.error ⟨"invalid assignment target at " ++
                  toString equals.loc.column ++ " " ++ toString equals.loc.line⟩, p)
        else (.ok expr, p)

/-- `Parser::logical_or`. -/
def logicalOr : Nat → Prs → PRes Expression
  | 0, p => (.error ⟨"out of fuel"⟩, p)
  | n + 1, p => pbind (logicalAnd n p) fun e p => logicalOrGo n p e

/-- The `or` loop of `Parser::logical_or`. -/
def logicalOrGo : Nat → Prs → Expression → PRes Expression
  | 0, p, _ => (.error ⟨"out of fuel"⟩, p)
  | n + 1, p, e =>
      let (m, p) := p.matchesToken [.Or]
      if m then
        let op := p.previous
        pbind (logicalAnd n p) fun right p =>
          logicalOrGo n p (.Logical e op right)
      else (.ok e, p)

/-- `Parser::logical_and`. -/
def logicalAnd : Nat → Prs → PRes Expression
  | 0, p => (.error ⟨"out of fuel"⟩, p)
  | n + 1, p => pbind (equality n p) fun e p => logicalAndGo n p e

/-- The `and` loop of `Parser::logical_and`. -/
def logicalAndGo : Nat → Prs → Expression → PRes Expression
  | 0, p, _ => (.error ⟨"out of fuel"⟩, p)
  | n + 1, p, e =>
      let (m, p) := p.matchesToken [.And]
      if m then
        let op := p.previous
        pbind (equality n p) fun right p =>
          logicalAndGo n p (.Logical e op right)
      else (.ok e, p)

/-- `Parser::equality`. -/
def equality : Nat → Prs → PRes Expression
  | 0, p => (.error ⟨"out of fuel"⟩, p)
  | n + 1, p => pbind (comparison n p) fun e p => equalityGo n p e

/-- The operator loop of `Parser::equality` (builds left-associated
`Binary` nodes, as the `ExpressionBuilder` call sites do). -/
def equalityGo : Nat → Prs → Expression → PRes Expression
  | 0, p, _ => (.error ⟨"out of fuel"⟩, p)
  | n + 1, p, e =>
      let (m, p) := p.matchesToken [.BangEqual, .EqualEqual]
      if m then
        let op := p.previous
        pbind (comparison n p) fun right p =>
          equalityGo n p (.Binary e op right)
      else (.ok e, p)

/-- `Parser::comparison`. -/
def comparison : Nat → Prs → PRes Expression
  | 0, p => (.error ⟨"out of fuel"⟩, p)
  | n + 1, p => pbind (term n p) fun e p => comparisonGo n p e

/-- The operator loop of `Parser::comparison`. -/
def comparisonGo : Nat → Prs → Expression → PRes Expression
  | 0, p, _ => (.error ⟨"out of fuel"⟩, p)
  | n + 1, p, e =>
      let (m, p) := p.matchesToken [.GreaterEqual, .Greater, .LessEqual, .Less]
      if m then
        let op := p.previous
        pbind (term n p) fun right p =>
          comparisonGo n p (.Binary e op right)
      else (.ok e, p)

/-- `Parser::term`. -/
def term : Nat → Prs → PRes Expression
  | 0, p => (.error ⟨"out of fuel"⟩, p)
  | n + 1, p => pbind (factor n p) fun e p => termGo n p e

/-- The operator loop of `Parser::term`. -/
def termGo : Nat → Prs → Expression → PRes Expression
  | 0, p, _ => (.error ⟨"out of fuel"⟩, p)
  | n + 1, p, e =>
      let (m, p) := p.matchesToken [.Minus, .Plus]
      if m then
        let op := p.previous
        pbind (factor n p) fun right p =>
          termGo n p (.Binary e op right)
      else (.ok e, p)

/-- `Parser::factor`. -/
def factor : Nat → Prs → PRes Expression
  | 0, p => (.error ⟨"out of fuel"⟩, p)
  | n + 1, p => pbind (unary n p) fun e p => factorGo n p e

/-- The operator loop of `Parser::factor`. -/
def factorGo : Nat → Prs → Expression → PRes Expression
  | 0, p, _ => (.error ⟨"out of fuel"⟩, p)
  | n + 1, p, e =>
      let (m, p) := p.matchesToken [.Slash, .Star]
      if m then
        let op := p.previous
        pbind (unary n p) fun right p =>
          factorGo n p (.Binary e op right)
      else (.ok e, p)

/-- `Parser::unary`. -/
def unary : Nat → Prs → PRes Expression
  | 0, p => (.error ⟨"out of fuel"⟩, p)
  | n + 1, p =>
      let (m, p) := p.matchesToken [.Bang, .Minus]
      if m then
        let op := p.previous
        pbind (unary n p) fun right p => (.ok (.Unary op right), p)
      else primary n p

/-- `Parser::primary`. -/
def primary : Nat → Prs → PRes Expression
  | 0, p => (.error ⟨"out of fuel"⟩, p)
  | n + 1, p =>
      let (m, p) := p.matchesToken [.False]
      if m then (.ok (.Literal (.Boolean false)), p) else
      let (m, p) := p.matchesToken [.True]
      if m then (.ok (.Literal (.Boolean true)), p) else
      let (m, p) := p.matchesToken [.Number, .String]
      if m then (.ok (.Literal p.previous.literal), p) else
      let (m, p) := p.matchesToken [.LeftParen]
      if m then
        pbind (expression n p) fun g p =>
          pbind (p.consume .RightParen "expect ) after expression.") fun _ p =>
            (.ok (.Group g), p)
      else
      let (m, p) := p.matchesToken [.Identifier]
      if m then (.ok (.Variable p.previous), p)
      else (.error ⟨"expect expression"⟩, p)

end

/-- The statement loop of `Parser::parse`: collect parsed statements in
source order; on an error, record it and synchronize. -/
def parseGo : Nat → Prs → List Statement × List ParserError × Prs
  | 0, p => ([], [], p)
  | n + 1, p =>
      if !p.isAtEnd then
        match declaration n p with
        | (.ok stmt, p₁) =>
            let (stmts, errs, p₂) := parseGo n p₁
            (stmt :: stmts, errs, p₂)
        | (.error e, p₁) =>
            let p₂ := synchronize p₁
            let (stmts, errs, p₃) := parseGo n p₂
            (stmts, e :: errs, p₃)
      else ([], [], p)

/-- `Parser::parse`: the final statement list is cleared if any declaration
failed (the error flag is set exactly when at least one error was written to
the sink). -/
def parse (fuel : Nat) (tokens : List Token) (strict : Bool) : List Statement :=
  let (stmts, errs, _) := parseGo fuel (Prs.new tokens strict)
  if errs.isEmpty then stmts else []


/-! ## Parser lemmas and claim theorems -/

theorem isAtEnd_of_big_curr (p : Prs) (h : p.tokens.length ≤ p.curr) :
    p.isAtEnd = true := by
  simp only [Prs.isAtEnd]
  by_cases he : p.tokens.isEmpty
  · simp [he]
  · have : p.peek = defaultToken := by
      simp only [Prs.peek]
      exact List.getD_eq_default _ _ h
    simp [he, this, defaultToken]

/-- Full characterization of the synchronize discard loop, for claim C4:
run with enough fuel, it leaves everything but the cursor unchanged, moves
the cursor forward past tokens that are not synchronization keywords, and
stops exactly at the end of input or at a synchronization keyword. -/
theorem syncGo_spec (n : Nat) (p : Prs)
    (hn : p.tokens.length + 1 - p.curr ≤ n) :
    (synchronizeGo n p).tokens = p.tokens ∧
    (synchronizeGo n p).inLoop = p.inLoop ∧
    (synchronizeGo n p).strict = p.strict ∧
    p.curr ≤ (synchronizeGo n p).curr ∧
    ((synchronizeGo n p).isAtEnd = true ∨
      isSyncPoint ((synchronizeGo n p).peek).token_type = true) ∧
    (∀ k, p.curr ≤ k → k < (synchronizeGo n p).curr →
      isSyncPoint ((p.tokens.getD k defaultToken).token_type) = false) := by
  induction n generalizing p with
  | zero =>
      refine ⟨rfl, rfl, rfl, le_refl _, Or.inl ?_, ?_⟩
      · exact isAtEnd_of_big_curr p (by omega)
      · intro k h1 h2
        simp only [synchronizeGo] at h2
        omega
  | succ n ih =>
      simp only [synchronizeGo]
      by_cases hend : p.isAtEnd = true
      · rw [if_pos hend]
        refine ⟨rfl, rfl, rfl, le_refl _, Or.inl hend, ?_⟩
        intro k h1 h2
        omega
      · have hend2 : p.isAtEnd = false := by simpa using hend
        rw [if_neg hend]
        by_cases hsync : isSyncPoint (p.peek).token_type = true
        · rw [if_pos hsync]
          refine ⟨rfl, rfl, rfl, le_refl _, Or.inr hsync, ?_⟩
          intro k h1 h2
          omega
        · rw [if_neg hsync]
          have hlt := Prs.curr_lt_of_not_isAtEnd p hend2
          have hadv := Prs.advance_of_not_isAtEnd p hend2
          have ht : ((p.advance).2).tokens = p.tokens := by rw [hadv]
          have hc : ((p.advance).2).curr = p.curr + 1 := by rw [hadv]
          have hl2 : ((p.advance).2).inLoop = p.inLoop := by rw [hadv]
          have hs2 : ((p.advance).2).strict = p.strict := by rw [hadv]
          have hn2 : ((p.advance).2).tokens.length + 1 - ((p.advance).2).curr ≤ n := by
            rw [ht, hc]
            omega
          obtain ⟨i1, i2, i3, i4, i5, i6⟩ := ih (p.advance).2 hn2
          rw [ht] at i1 i6
          rw [hc] at i4 i6
          rw [hl2] at i2
          rw [hs2] at i3
          refine ⟨i1, i2, i3, by omega, i5, ?_⟩
          intro k h1 h2
          by_cases hk : k = p.curr
          · subst hk
            simp only [Prs.peek] at hsync
            simpa using hsync
          · exact i6 k (by omega) h2

/-- Tokens used in concrete parser runs. -/
def numTok1 : Token :=
  { token_type := .Number, lexeme := "1", literal := .Number (.finite 1),
    loc := ⟨0, 0, 0⟩ }

/-- A `var` keyword token. -/
def varTok : Token :=
  { token_type := .Var, lexeme := "var", literal := .None, loc := ⟨0, 0, 0⟩ }

/-- A `class` keyword token. -/
def classTok : Token :=
  { token_type := .Class, lexeme := "class", literal := .None, loc := ⟨0, 0, 0⟩ }

/-- The identifier token the scanner produces for the lexeme `fun`. -/
def funTok : Token :=
  { token_type := .Identifier, lexeme := "fun", literal := .None, loc := ⟨0, 0, 0⟩ }

/-- Claim C4, counterexample: from the token list `[!, ;, 1, EOF]` at
position 0, synchronize advances past the `;` (position 1) and the number
(position 2) and stops only at `EOF` (position 3); under the claim it would
stop right after consuming the `;`, at position 2. -/
theorem C4_synchronize_ignores_semicolon_counterexample :
    (synchronize (Prs.new [opTok .Bang, opTok .Semicolon, numTok1, opTok .Eof]
      true)).curr = 3 ∧ (3 : Nat) ≠ 2 :=
  ⟨by decide, by decide⟩

/-- Claim C4 (amended): after a parse error, synchronize advances one token
and then discards tokens until one of the statement keywords `class`,
`var`, `for`, `if`, `while`, `print`, `return` is seen or the end of input
is reached; a `;` does not stop synchronization (and there is no `fun`
token kind).  Formally: only the cursor changes, it never moves backwards
past the initial advance, every skipped token is a non-keyword, and the
final position is the end or a keyword. -/
theorem C4_synchronize_discards_to_keyword (p : Prs) :
    (synchronize p).tokens = p.tokens ∧
    (synchronize p).inLoop = p.inLoop ∧
    (synchronize p).strict = p.strict ∧
    ((p.advance).2).curr ≤ (synchronize p).curr ∧
    ((synchronize p).isAtEnd = true ∨
      isSyncPoint ((synchronize p).peek).token_type = true) ∧
    (∀ k, ((p.advance).2).curr ≤ k → k < (synchronize p).curr →
      isSyncPoint ((p.tokens.getD k defaultToken).token_type) = false) := by
  have htoks : ((p.advance).2).tokens = p.tokens := by
    simp only [Prs.advance]
    split <;> rfl
  have hloop : ((p.advance).2).inLoop = p.inLoop := by
    simp only [Prs.advance]
    split <;> rfl
  have hstrict : ((p.advance).2).strict = p.strict := by
    simp only [Prs.advance]
    split <;> rfl
  have hn : ((p.advance).2).tokens.length + 1 - ((p.advance).2).curr ≤
      p.tokens.length + 1 := by
    rw [htoks]
    omega
  obtain ⟨i1, i2, i3, i4, i5, i6⟩ := syncGo_spec (p.tokens.length + 1) (p.advance).2 hn
  rw [htoks] at i1 i6
  rw [hloop] at i2
  rw [hstrict] at i3
  exact ⟨i1, i2, i3, i4, i5, i6⟩

/-- Claim C4 (amended), instance: synchronizing `[!, var, EOF]` from
position 0 stops at the `var` keyword at position 1. -/
theorem C4_synchronize_discards_to_keyword_witness :
    (synchronize (Prs.new [opTok .Bang, varTok, opTok .Eof] true)).isAtEnd = true ∨
    isSyncPoint ((synchronize (Prs.new [opTok .Bang, varTok, opTok .Eof]
      true)).peek).token_type = true :=
  (C4_synchronize_discards_to_keyword
    (Prs.new [opTok .Bang, varTok, opTok .Eof] true)).2.2.2.2.1

/-- Claim C3: `Parser::parse` is all-or-nothing.  If any declaration failed
(the error list is nonempty) the returned program is empty; if none failed
the returned program is exactly the list of parsed statements in source
order. -/
theorem C3_parse_all_or_nothing (fuel : Nat) (tokens : List Token) (strict : Bool) :
    ((parseGo fuel (Prs.new tokens strict)).2.1 ≠ [] →
      parse fuel tokens strict = []) ∧
    ((parseGo fuel (Prs.new tokens strict)).2.1 = [] →
      parse fuel tokens strict = (parseGo fuel (Prs.new tokens strict)).1) := by
  have hparse : parse fuel tokens strict =
      (if (parseGo fuel (Prs.new tokens strict)).2.1.isEmpty then
        (parseGo fuel (Prs.new tokens strict)).1 else []) := rfl
  constructor
  · intro hne
    rw [hparse]
    cases hE : (parseGo fuel (Prs.new tokens strict)).2.1 with
    | nil => exact absurd hE hne
    | cons e es => simp
  · intro he
    rw [hparse, he]
    simp

/-- Claim C3, instance: parsing `!` (a parse error) yields the empty
program, and parsing `1;` yields exactly the one expression statement. -/
theorem C3_parse_all_or_nothing_witness :
    parse 30 [opTok .Bang, opTok .Eof] true = [] ∧
    parse 30 [numTok1, opTok .Semicolon, opTok .Eof] true =
      [.Expr (.Literal (.Number (.finite 1)))] := by
  constructor
  · exact (C3_parse_all_or_nothing 30 [opTok .Bang, opTok .Eof] true).1 (by decide)
  · have h := (C3_parse_all_or_nothing 30
      [numTok1, opTok .Semicolon, opTok .Eof] true).2 (by decide)
    rw [h]
    rfl

/-- Claim C6, counterexample: the lexeme `fun` is scanned as an
`Identifier` token, not as a reserved keyword kind — the keyword table has
no entry for it (and `TokenType` has no `Fun` variant). -/
theorem C6_fun_scans_as_identifier_counterexample :
    ((Scanner.new "fun").run).map (fun sc => sc.tokens.map (fun t => t.token_type)) =
      .ok [.Identifier, .Eof] ∧
    IDENTIFIERS.lookup "fun" = none :=
  ⟨by decide, by decide⟩

/-- Claim C6 (amended): `class`, `super`, `this`, `return` are scanned as
their reserved keyword token kinds and the parser rejects them in statement
position (the program is discarded with a parse error), but `fun` is scanned
as an `Identifier` and in statement position parses as an ordinary
identifier expression. -/
theorem C6_reserved_keywords_except_fun :
    ((Scanner.new "class super this return").run).map
        (fun sc => sc.tokens.map (fun t => t.token_type)) =
      .ok [.Class, .Super, .This, .Return, .Eof] ∧
    parse 30 [classTok, opTok .Eof] true = [] ∧
    (parseGo 30 (Prs.new [classTok, opTok .Eof] true)).2.1 =
      [⟨"expect expression"⟩] ∧
    parse 30 [funTok, opTok .Semicolon, opTok .Eof] true =
      [.Expr (.Variable funTok)] :=
  ⟨by decide, by rfl, by decide, by rfl⟩

end LoxRs
